import Mathlib

/-!
# KonaBess-Next: the native `dtc` wrapper (`app/src/main/cpp/native-lib.cpp`)

A shallow embedding of `run_dtc_command` and of the two JNI entry points
`dtbToDts` / `dtsToDtb`.

The wrapper is a straight-line sequence of POSIX calls around one call of the
external `dtc_main`.  The embedding passes an explicit process state `Sys`
(descriptor table, contents of the two pipes, log of the calls made) through
that sequence, line by line.

What stands outside the source and is therefore a parameter (`Env`):
* which allocating calls the kernel refuses although a slot is free,
* how many bytes a pipe holds (`pipeCap`, 65536 by default on Linux),
* what `dtc_main` does (bytes written to descriptors 1 and 2, and whether it
  returns a status or leaves through `longjmp (dtc_env)`),
* how many bytes each `read` hands over.

Modelling conventions:
* descriptors are allocated lowest-free-first below `limit` (RLIMIT_NOFILE);
* a pipe holds at most `pipeCap` bytes, and nothing reads the two pipes
  before line 102: a writer that finds its pipe full blocks for ever;
* stdio buffering is collapsed: the bytes the tool wrote are sent to the
  descriptor during lines 75-84, and a blocked `write` inside `dtc_main` and a
  blocked `fflush` of lines 83-84 are the same outcome, `hang`;
* `dtc_main` itself leaves the descriptor table alone;
* only the calling thread touches the descriptors during the call, so a
  `read` on an empty pipe whose write end is still open never returns;
* `args.size ()` fits an `int` (both callers pass eight elements).
-/

namespace KonaBess

/-! ## Bytes and strings -/

/-- One `char`; the value 0 is the C string terminator. -/
abbrev Byte := Nat

/-- The bytes of an ASCII string literal of the source. -/
def lit (s : String) : List Byte := s.toList.map Char.toNat

/-- What a `const char*` reader sees of a buffer: the bytes before the first 0.
    This is `std::string::operator+= (const char*)`, `std::string (const char*)`
    and the view taken by `c_str ()` consumers. -/
def c_str (b : List Byte) : List Byte := b.takeWhile (fun x => x != 0)

/-- A NUL-terminated C string as handed out by `GetStringUTFChars`: the bytes
    before the terminator, none of which is 0. -/
structure CStr where
  bytes : List Byte
  nul_free : ∀ b ∈ bytes, b ≠ 0

/-- Decimal digits of a natural number, most significant first (`fuel` bounds
    the number of digits). -/
def digitsLoop : Nat → Nat → List Byte → List Byte
  | 0, _, acc => acc
  | fuel + 1, n, acc =>
    if n / 10 = 0 then (48 + n % 10) :: acc
    else digitsLoop fuel (n / 10) ((48 + n % 10) :: acc)

/-- The library function `std::to_string (int)`. -/
def to_string (n : Int) : List Byte :=
  if n < 0 then 45 :: digitsLoop (n.natAbs + 1) n.natAbs []
  else digitsLoop (n.natAbs + 1) n.natAbs []

/-! ## Process state -/

/-- The two pipes of one call: `pipe_out` and `pipe_err`. -/
inductive Side
  | out
  | err
  deriving DecidableEq, Repr

/-- An open file description a descriptor can refer to. -/
inductive Obj
  | host (id : Nat)
  | pipeRd (p : Side)
  | pipeWr (p : Side)
  deriving DecidableEq, Repr

/-- A call the wrapper made and that came back, in program order (a `read`
    that blocks for ever leaves no entry). -/
inductive Event
  | pipe (res : Option (Nat × Nat))
  | dup (fd : Int) (res : Int)
  | dup2 (oldfd : Int) (newfd : Int)
  | close (fd : Int)
  | invoke (argc : Int) (argv : List (List Byte))
  | read (fd : Int) (n : Int)
  deriving DecidableEq, Repr

structure Sys where
  limit : Nat
  fds : Nat → Option Obj
  outBuf : List Byte
  errBuf : List Byte
  trace : List Event

/-- The process before a call: only host files are open, described by `host`. -/
def Sys.init (limit : Nat) (host : Nat → Option Nat) : Sys :=
  { limit := limit
    fds := fun i => (host i).map Obj.host
    outBuf := []
    errBuf := []
    trace := [] }

def Sys.get (s : Sys) (fd : Int) : Option Obj :=
  if 0 ≤ fd then s.fds fd.toNat else none

def Sys.put (s : Sys) (fd : Nat) (o : Option Obj) : Sys :=
  { s with fds := fun i => if i = fd then o else s.fds i }

def Sys.log (s : Sys) (e : Event) : Sys :=
  { s with trace := s.trace ++ [e] }

def Sys.buf (s : Sys) : Side → List Byte
  | Side.out => s.outBuf
  | Side.err => s.errBuf

def Sys.setBuf (s : Sys) (p : Side) (b : List Byte) : Sys :=
  match p with
  | Side.out => { s with outBuf := b }
  | Side.err => { s with errBuf := b }

/-- Scan `n` slots upward from `i` for a closed descriptor. -/
def firstFree (fds : Nat → Option Obj) : Nat → Nat → Option Nat
  | _, 0 => none
  | i, n + 1 => if (fds i).isNone then some i else firstFree fds (i + 1) n

def lowestFree (s : Sys) : Option Nat := firstFree s.fds 0 s.limit

/-- Is some descriptor of the process the write end of pipe `p`? -/
def anyWriter (fds : Nat → Option Obj) (p : Side) : Nat → Bool
  | 0 => false
  | n + 1 => fds n == some (Obj.pipeWr p) || anyWriter fds p n

def writerOpen (s : Sys) (p : Side) : Bool := anyWriter s.fds p s.limit

/-! ## The system calls used by the wrapper -/

/-- The call `pipe (int[2])`: both ends or nothing. -/
def pipe (denied : Bool) (p : Side) (s : Sys) : Sys × Option (Int × Int) :=
  if denied then (s.log (Event.pipe none), none)
  else
    match lowestFree s with
    | none => (s.log (Event.pipe none), none)
    | some r =>
      match lowestFree (s.put r (some (Obj.pipeRd p))) with
      | none => (s.log (Event.pipe none), none)
      | some w =>
        (((s.put r (some (Obj.pipeRd p))).put w (some (Obj.pipeWr p))).log
            (Event.pipe (some (r, w))),
          some ((r : Int), (w : Int)))

/-- The call `dup (fd)`: -1 on a closed `fd`, on a full table or when refused. -/
def dup (denied : Bool) (fd : Int) (s : Sys) : Sys × Int :=
  match s.get fd with
  | none => (s.log (Event.dup fd (-1)), -1)
  | some o =>
    if denied then (s.log (Event.dup fd (-1)), -1)
    else
      match lowestFree s with
      | none => (s.log (Event.dup fd (-1)), -1)
      | some n => ((s.put n (some o)).log (Event.dup fd n), (n : Int))

/-- The call `dup2 (oldfd, newfd)`; the wrapper ignores the return value. -/
def dup2 (oldfd newfd : Int) (s : Sys) : Sys :=
  match s.get oldfd with
  | none => s.log (Event.dup2 oldfd newfd)
  | some o =>
    if 0 ≤ newfd ∧ newfd.toNat < s.limit then
      (s.put newfd.toNat (some o)).log (Event.dup2 oldfd newfd)
    else s.log (Event.dup2 oldfd newfd)

/-- The call `close (fd)`. -/
def close (fd : Int) (s : Sys) : Sys :=
  if 0 ≤ fd then (s.put fd.toNat none).log (Event.close fd)
  else s.log (Event.close fd)

/-- The call `write` as issued by the tool through stdio (directly or by the
    `fflush` of lines 83-84).  Bytes sent to a pipe write end are queued in
    that pipe as long as they fit in its `cap` bytes; when they do not fit the
    pipe is filled and the writer blocks, for ever since nothing reads the
    pipe before line 102: the flag is `false`.  Writes to anything else are
    not seen by the wrapper. -/
def write (cap : Nat) (fd : Int) (data : List Byte) (s : Sys) : Sys × Bool :=
  match s.get fd with
  | some (Obj.pipeWr p) =>
    if (s.buf p).length + data.length ≤ cap then (s.setBuf p (s.buf p ++ data), true)
    else (s.setBuf p (s.buf p ++ data.take (cap - (s.buf p).length)), false)
  | _ => (s, true)

/-- Result of one `read (fd, buffer, sizeof (buffer) - 1)`. -/
inductive ReadRes
  | data (chunk : List Byte)
  | eof
  | error
  | blocked
  deriving DecidableEq, Repr

/-- Number of bytes one `read` hands over: at least 1, at most 1023, at most
    what is queued; `want` is the kernel's choice. -/
def chunkLen (want avail : Nat) : Nat := max 1 (min want (min 1023 avail))

/-- The call `read (fd, buffer, 1023)`.  On a pipe read end: queued bytes if there are
    any, end of stream when the pipe is empty and no write end is open, and no
    return at all when it is empty and a write end is open.  Host files carry
    no data in this model and report end of stream. -/
def read (want : Nat) (fd : Int) (s : Sys) : Sys × ReadRes :=
  match s.get fd with
  | some (Obj.pipeRd p) =>
    if s.buf p = [] then
      if writerOpen s p then (s, ReadRes.blocked)
      else (s.log (Event.read fd 0), ReadRes.eof)
    else
      let k := chunkLen want (s.buf p).length
      ((s.setBuf p ((s.buf p).drop k)).log (Event.read fd k), ReadRes.data ((s.buf p).take k))
  | some (Obj.host _) => (s.log (Event.read fd 0), ReadRes.eof)
  | _ => (s.log (Event.read fd (-1)), ReadRes.error)

/-! ## The environment of one call -/

/-- How `dtc_main` left: by returning a status, or through `die ()`, which
    ends in `longjmp (dtc_env, ...)`. -/
inductive ToolExit
  | returned (status : Int)
  | died
  deriving DecidableEq, Repr

/-- One execution of `dtc_main`: the bytes it wrote to standard output and
    to standard error, and how it left. -/
structure ToolRun where
  wroteOut : List Byte
  wroteErr : List Byte
  exit : ToolExit

structure Env where
  pipeCap : Nat
  pipeOutDenied : Bool
  pipeErrDenied : Bool
  dupOutDenied : Bool
  dupErrDenied : Bool
  dtc_main : Int → List (List Byte) → ToolRun
  schedOut : List Nat
  schedErr : List Nat

/-- Outcome of a piece of code that may block for ever: `hang` is a `read`
    of an empty pipe whose write end is open, or a `write` to a full pipe
    that nothing reads.  `fuel` is the exhausted loop bound of `drainLoop`;
    `run_never_fuel` shows it does not occur. -/
inductive Outcome (α : Type)
  | done (a : α)
  | hang
  | fuel
  deriving DecidableEq, Repr

/-! ## `run_dtc_command` -/

/-- The four descriptors `pipe_out[0..1]`, `pipe_err[0..1]`. -/
structure Pipes where
  out0 : Int
  out1 : Int
  err0 : Int
  err1 : Int
  deriving DecidableEq, Repr

/-- Line 51: `pipe (pipe_out) != 0 || pipe (pipe_err) != 0`, left to right,
    the second call only when the first succeeded. -/
def createPipes (env : Env) (s : Sys) : Sys × Option Pipes :=
  match pipe env.pipeOutDenied Side.out s with
  | (s1, none) => (s1, none)
  | (s1, some po) =>
    match pipe env.pipeErrDenied Side.err s1 with
    | (s2, none) => (s2, none)
    | (s2, some pe) => (s2, some ⟨po.1, po.2, pe.1, pe.2⟩)

/-- Lines 58-59: `original_stdout = dup (STDOUT_FILENO)`,
    `original_stderr = dup (STDERR_FILENO)`. -/
def saveStreams (env : Env) (s : Sys) : Sys × Int × Int :=
  ((dup env.dupErrDenied 2 (dup env.dupOutDenied 1 s).1).1,
    (dup env.dupOutDenied 1 s).2,
    (dup env.dupErrDenied 2 (dup env.dupOutDenied 1 s).1).2)

/-- Lines 62-66: redirect descriptors 1 and 2 into the pipes, then close the
    pipes' own write descriptors. -/
def redirect (p : Pipes) (s : Sys) : Sys :=
  close p.err1 (close p.out1 (dup2 p.err1 2 (dup2 p.out1 1 s)))

/-- Lines 70-80, the two branches of `if (setjmp (dtc_env) == 0)`: the
    values of the locals `ret` and `captured_output` afterwards. -/
def afterSetjmp : ToolExit → Int × List Byte
  | ToolExit.returned status => (status, [])
  | ToolExit.died => (-1, lit "CRITICAL: DTC Terminated (die() called)\n")

/-- Lines 70-84: `setjmp`, the call of `dtc_main`, and the two `fflush`.
    Yields the state and the locals `ret`, `captured_output`, or `hang` when
    the output of the tool does not fit into a pipe. -/
def callTool (env : Env) (argc : Int) (argv : List (List Byte)) (s : Sys) :
    Sys × Outcome (Int × List Byte) :=
  match write env.pipeCap 1 (env.dtc_main argc argv).wroteOut
      (s.log (Event.invoke argc argv)) with
  | (s1, false) => (s1, Outcome.hang)
  | (s1, true) =>
    match write env.pipeCap 2 (env.dtc_main argc argv).wroteErr s1 with
    | (s2, false) => (s2, Outcome.hang)
    | (s2, true) => (s2, Outcome.done (afterSetjmp (env.dtc_main argc argv).exit))

/-- Lines 87-90: put the saved descriptors back and close the duplicates. -/
def restore (original_stdout original_stderr : Int) (s : Sys) : Sys :=
  close original_stderr (close original_stdout
    (dup2 original_stderr 2 (dup2 original_stdout 1 s)))

/-- The loops of lines 102-105 and 109-112:
    `while ((n = read (fd, buffer, 1023)) > 0) { buffer[n] = 0; captured_output += buffer; }`.
    `sched` lists the sizes the successive reads hand over. -/
def drainLoop : Nat → List Nat → Int → Sys → List Byte → Sys × Outcome (List Byte)
  | 0, _, _, s, _ => (s, Outcome.fuel)
  | fuel + 1, sched, fd, s, captured =>
    match read (sched.headD 1023) fd s with
    | (s1, ReadRes.data chunk) => drainLoop fuel sched.tail fd s1 (captured ++ c_str chunk)
    | (s1, ReadRes.blocked) => (s1, Outcome.hang)
    | (s1, _) => (s1, Outcome.done captured)

def drain (sched : List Nat) (fd : Int) (s : Sys) (captured : List Byte) :
    Sys × Outcome (List Byte) :=
  drainLoop (s.outBuf.length + s.errBuf.length + 1) sched fd s captured

/-- Locals of `run_dtc_command` that are live after line 90. -/
structure Frame where
  pipe_out0 : Int
  pipe_err0 : Int
  ret : Int
  captured_output : List Byte
  deriving DecidableEq, Repr

/-- Lines 34-90 of `run_dtc_command`: everything up to, not including, the
    first drain `read`.  `done none` is the early return of line 54, `hang` a
    tool blocked on a full pipe. -/
def runToRestore (env : Env) (s0 : Sys) (args : List (List Byte)) :
    Sys × Outcome (Option Frame) :=
  match createPipes env s0 with
  | (s1, none) => (s1, Outcome.done none)
  | (s1, some p) =>
    match callTool env (args.length : Int) (args.map c_str)
        (redirect p (saveStreams env s1).1) with
    | (t, Outcome.done rc) =>
      (restore (saveStreams env s1).2.1 (saveStreams env s1).2.2 t,
        Outcome.done (some ⟨p.out0, p.err0, rc.1, rc.2⟩))
    | (t, Outcome.hang) => (t, Outcome.hang)
    | (t, Outcome.fuel) => (t, Outcome.fuel)

/-- Lines 117-121. -/
def classify (ret : Int) (captured_output : List Byte) : List Byte :=
  if ret ≠ 0 then lit "DTC Failed (Code " ++ to_string ret ++ lit "):\n" ++ captured_output
  else []

/-- Lines 97-115: drain stdout, close, drain stderr, close.  Yields the
    locals `ret` and `captured_output` with which line 117 is reached. -/
def drainBoth (env : Env) (s : Sys) (f : Frame) : Sys × Outcome (Int × List Byte) :=
  match drain env.schedOut f.pipe_out0 s f.captured_output with
  | (s1, Outcome.done c1) =>
    match drain env.schedErr f.pipe_err0 (close f.pipe_out0 s1) c1 with
    | (s2, Outcome.done c2) => (close f.pipe_err0 s2, Outcome.done (f.ret, c2))
    | (s2, Outcome.hang) => (s2, Outcome.hang)
    | (s2, Outcome.fuel) => (s2, Outcome.fuel)
  | (s1, Outcome.hang) => (s1, Outcome.hang)
  | (s1, Outcome.fuel) => (s1, Outcome.fuel)

/-- Lines 97-121: the two drains, then the classification. -/
def drainAndClassify (env : Env) (s : Sys) (f : Frame) : Sys × Outcome (List Byte) :=
  match drainBoth env s f with
  | (s1, Outcome.done rc) => (s1, Outcome.done (classify rc.1 rc.2))
  | (s1, Outcome.hang) => (s1, Outcome.hang)
  | (s1, Outcome.fuel) => (s1, Outcome.fuel)

/-- The function `std::string run_dtc_command (const std::vector<std::string>& args)`:
    the state after the call and the returned string, or `hang`. -/
def run_dtc_command (env : Env) (s0 : Sys) (args : List (List Byte)) :
    Sys × Outcome (List Byte) :=
  match runToRestore env s0 args with
  | (s, Outcome.done none) => (s, Outcome.done (lit "Internal Error: Pipe creation failed"))
  | (s, Outcome.done (some f)) => drainAndClassify env s f
  | (s, Outcome.hang) => (s, Outcome.hang)
  | (s, Outcome.fuel) => (s, Outcome.fuel)

/-! ## The JNI entry points -/

/-- How a JNI entry point comes back to Java: plainly, or with a pending
    exception of class `cls` and message `msg`. -/
inductive Jni
  | returned
  | threw (cls : List Byte) (msg : List Byte)
  deriving DecidableEq, Repr

/-- Lines 147-150 and 176-179: `if (!result.empty ()) ThrowNew (..., result.c_str ())`. -/
def throwIfNonEmpty (result : List Byte) : Jni :=
  if result ≠ [] then Jni.threw (lit "java/io/IOException") (c_str result)
  else Jni.returned

/-- Lines 134-140: the argument vector built by `dtbToDts`. -/
def dtbToDts_args (inputPath outputPath : CStr) : List (List Byte) :=
  [lit "dtc", lit "-I", lit "dtb", lit "-O", lit "dts", lit "-o",
    c_str outputPath.bytes, c_str inputPath.bytes]

/-- Lines 163-169: the argument vector built by `dtsToDtb`. -/
def dtsToDtb_args (inputPath outputPath : CStr) : List (List Byte) :=
  [lit "dtc", lit "-I", lit "dts", lit "-O", lit "dtb", lit "-o",
    c_str outputPath.bytes, c_str inputPath.bytes]

/-- Lines 142-150 / 171-179, common to both entry points. -/
def finishJni (r : Sys × Outcome (List Byte)) : Sys × Outcome Jni :=
  match r with
  | (s, Outcome.done result) => (s, Outcome.done (throwIfNonEmpty result))
  | (s, Outcome.hang) => (s, Outcome.hang)
  | (s, Outcome.fuel) => (s, Outcome.fuel)

/-- The entry point `Java_..._DtcNative_dtbToDts`, lines 124-151. -/
def dtbToDts (env : Env) (s0 : Sys) (inputPath outputPath : CStr) : Sys × Outcome Jni :=
  finishJni (run_dtc_command env s0 (dtbToDts_args inputPath outputPath))

/-- The entry point `Java_..._DtcNative_dtsToDtb`, lines 153-180. -/
def dtsToDtb (env : Env) (s0 : Sys) (inputPath outputPath : CStr) : Sys × Outcome Jni :=
  finishJni (run_dtc_command env s0 (dtsToDtb_args inputPath outputPath))

/-! ## Conditions on a run, read off the calls themselves -/

/-- Both `pipe` calls of line 51 succeed. -/
def pipesCreated (env : Env) (s0 : Sys) : Bool := (createPipes env s0).2.isSome

/-- Both `dup` calls of lines 58-59 are reached and succeed. -/
def dupsSucceed (env : Env) (s0 : Sys) : Bool :=
  match createPipes env s0 with
  | (_, none) => false
  | (s1, some _) => decide (0 ≤ (saveStreams env s1).2.1) && decide (0 ≤ (saveStreams env s1).2.2)

/-! ## Vocabulary of the statements -/

/-- The invocations of `dtc_main` recorded in a log. -/
def invokes : List Event → List (Int × List (List Byte))
  | [] => []
  | Event.invoke argc argv :: es => (argc, argv) :: invokes es
  | _ :: es => invokes es

/-- What the drain loop appends to `captured_output` when it empties a pipe
    holding `buf`: each chunk cut at its first 0 byte. -/
def capturedLoop : Nat → List Nat → List Byte → List Byte
  | 0, _, _ => []
  | fuel + 1, sched, buf =>
    if buf = [] then []
    else c_str (buf.take (chunkLen (sched.headD 1023) buf.length)) ++
      capturedLoop fuel sched.tail (buf.drop (chunkLen (sched.headD 1023) buf.length))

def captured (sched : List Nat) (buf : List Byte) : List Byte :=
  capturedLoop (buf.length + 1) sched buf

/-- State after two successful `pipe` calls that returned `r1 w1` and `r2 w2`. -/
def afterPipes (s0 : Sys) (r1 w1 r2 w2 : Nat) : Sys :=
  (((((s0.put r1 (some (Obj.pipeRd Side.out))).put w1 (some (Obj.pipeWr Side.out))).log
    (Event.pipe (some (r1, w1)))).put r2 (some (Obj.pipeRd Side.err))).put w2
      (some (Obj.pipeWr Side.err))).log (Event.pipe (some (r2, w2)))

/-- State after two successful `dup` calls that returned `n1` and `n2`. -/
def afterDups (s : Sys) (a b : Obj) (n1 n2 : Nat) : Sys :=
  (((s.put n1 (some a)).log (Event.dup 1 n1)).put n2 (some b)).log (Event.dup 2 n2)

/-- A host whose only open descriptor is 0: standard output and standard
    error are closed. -/
def stdinOnlyHost : Nat → Option Nat := fun i => if i = 0 then some 0 else none

/-- A host whose descriptors 0, 1 and 2 are the only open ones. -/
def stdHost : Nat → Option Nat := fun i => if i < 3 then some i else none

/-- An environment with pipes of 65536 bytes in which the kernel refuses
    nothing, every `read` hands over as much as it can, and `dtc_main` behaves
    as `run`. -/
def envOf (run : ToolRun) : Env :=
  { pipeCap := 65536
    pipeOutDenied := false
    pipeErrDenied := false
    dupOutDenied := false
    dupErrDenied := false
    dtc_main := fun _ _ => run
    schedOut := []
    schedErr := [] }

/-- The thirteen calls of lines 51-90 in a run whose setup succeeded. -/
def callsThroughRestore (r1 w1 r2 w2 n1 n2 : Nat) (argc : Int) (argv : List (List Byte)) :
    List Event :=
  [Event.pipe (some (r1, w1)), Event.pipe (some (r2, w2)), Event.dup 1 n1, Event.dup 2 n2,
    Event.dup2 w1 1, Event.dup2 w2 2, Event.close w1, Event.close w2,
    Event.invoke argc argv,
    Event.dup2 n1 1, Event.dup2 n2 2, Event.close n1, Event.close n2]

/-! ## Lemmas on the system calls -/

theorem firstFree_some (fds : Nat → Option Obj) :
    ∀ (n i r : Nat), firstFree fds i n = some r → i ≤ r ∧ r < i + n ∧ fds r = none := by
  intro n
  induction n with
  | zero => intro i r h; simp [firstFree] at h
  | succ n ih =>
    intro i r h
    unfold firstFree at h
    split at h
    · rename_i hfree
      simp only [Option.some.injEq] at h
      subst h
      refine ⟨le_refl _, by omega, ?_⟩
      simpa using hfree
    · obtain ⟨h1, h2, h3⟩ := ih (i + 1) r h
      exact ⟨by omega, by omega, h3⟩

theorem lowestFree_some {s : Sys} {r : Nat} (h : lowestFree s = some r) :
    r < s.limit ∧ s.fds r = none := by
  have := firstFree_some s.fds s.limit 0 r h
  exact ⟨by omega, this.2.2⟩

/-- What a successful `pipe` did. -/
theorem pipe_some {d : Bool} {p : Side} {s s1 : Sys} {ab : Int × Int}
    (h : pipe d p s = (s1, some ab)) :
    ∃ r w : Nat, ab = ((r : Int), (w : Int)) ∧ r ≠ w ∧ r < s.limit ∧ w < s.limit ∧
      s.fds r = none ∧ s.fds w = none ∧
      s1 = ((s.put r (some (Obj.pipeRd p))).put w (some (Obj.pipeWr p))).log
        (Event.pipe (some (r, w))) := by
  unfold pipe at h
  split at h
  · simp at h
  · split at h
    · simp at h
    · rename_i r hr
      split at h
      · simp at h
      · rename_i w hw
        simp only [Prod.mk.injEq, Option.some.injEq] at h
        obtain ⟨h1, h2⟩ := h
        have fr := lowestFree_some hr
        have fw := lowestFree_some hw
        simp only [Sys.put] at fw
        have hne : w ≠ r := by
          intro e
          simp [e] at fw
        refine ⟨r, w, h2.symm, fun e => hne e.symm, fr.1, fw.1, fr.2, ?_, h1.symm⟩
        simpa [hne] using fw.2

theorem dup_nonneg {d : Bool} {fd : Int} {s : Sys} (h : 0 ≤ (dup d fd s).2) :
    ∃ (n : Nat) (o : Obj), s.get fd = some o ∧ n < s.limit ∧ s.fds n = none ∧
      dup d fd s = ((s.put n (some o)).log (Event.dup fd n), (n : Int)) := by
  unfold dup at h ⊢
  split at h
  · simp at h
  · rename_i o ho
    split at h
    · simp at h
    · split at h
      · simp at h
      · rename_i n hn
        have fr := lowestFree_some hn
        refine ⟨n, o, ho, fr.1, fr.2, ?_⟩
        simp [ho, hn, *]

@[simp]
theorem log_fds (s : Sys) (e : Event) : (s.log e).fds = s.fds := rfl
@[simp]
theorem log_limit (s : Sys) (e : Event) : (s.log e).limit = s.limit := rfl
@[simp]
theorem log_outBuf (s : Sys) (e : Event) : (s.log e).outBuf = s.outBuf := rfl
@[simp]
theorem log_errBuf (s : Sys) (e : Event) : (s.log e).errBuf = s.errBuf := rfl
@[simp]
theorem log_trace (s : Sys) (e : Event) : (s.log e).trace = s.trace ++ [e] := rfl
@[simp]
theorem put_fds (s : Sys) (n : Nat) (o : Option Obj) :
    (s.put n o).fds = fun i => if i = n then o else s.fds i := rfl
@[simp]
theorem put_limit (s : Sys) (n : Nat) (o : Option Obj) : (s.put n o).limit = s.limit := rfl
@[simp]
theorem put_outBuf (s : Sys) (n : Nat) (o : Option Obj) : (s.put n o).outBuf = s.outBuf := rfl
@[simp]
theorem put_errBuf (s : Sys) (n : Nat) (o : Option Obj) : (s.put n o).errBuf = s.errBuf := rfl
@[simp]
theorem put_trace (s : Sys) (n : Nat) (o : Option Obj) : (s.put n o).trace = s.trace := rfl
@[simp]
theorem setBuf_fds (s : Sys) (p : Side) (b : List Byte) : (s.setBuf p b).fds = s.fds := by
  cases p <;> rfl
@[simp]
theorem setBuf_limit (s : Sys) (p : Side) (b : List Byte) :
    (s.setBuf p b).limit = s.limit := by
  cases p <;> rfl
@[simp]
theorem setBuf_trace (s : Sys) (p : Side) (b : List Byte) :
    (s.setBuf p b).trace = s.trace := by
  cases p <;> rfl
@[simp]
theorem setBuf_buf (s : Sys) (p : Side) (b : List Byte) : (s.setBuf p b).buf p = b := by
  cases p <;> rfl
theorem setBuf_buf_ne (s : Sys) {p q : Side} (b : List Byte) (h : q ≠ p) :
    (s.setBuf p b).buf q = s.buf q := by
  cases p <;> cases q <;> first | rfl | exact absurd rfl h

theorem get_congr {s t : Sys} (h : t.fds = s.fds) (fd : Int) : t.get fd = s.get fd := by
  simp [Sys.get, h]

theorem writerOpen_congr {s t : Sys} (h : t.fds = s.fds) (hl : t.limit = s.limit) (p : Side) :
    writerOpen t p = writerOpen s p := by
  simp [writerOpen, h, hl]

theorem chunkLen_pos (w a : Nat) : 1 ≤ chunkLen w a := by
  unfold chunkLen; omega

theorem capturedLoop_fuel : ∀ (f g : Nat) (sched : List Nat) (buf : List Byte),
    buf.length < f → buf.length < g → capturedLoop f sched buf = capturedLoop g sched buf := by
  intro f
  induction f with
  | zero => intro g sched buf h; omega
  | succ f ih =>
    intro g sched buf hf hg
    cases g with
    | zero => omega
    | succ g =>
      unfold capturedLoop
      by_cases hb : buf = []
      · simp [hb]
      · simp only [hb, if_false]
        have hpos : 0 < buf.length := List.length_pos.mpr hb
        have hk := chunkLen_pos (sched.headD 1023) buf.length
        rw [ih g sched.tail _ (by rw [List.length_drop]; omega)
          (by rw [List.length_drop]; omega)]

@[simp]
theorem invokes_append (xs ys : List Event) :
    invokes (xs ++ ys) = invokes xs ++ invokes ys := by
  induction xs with
  | nil => rfl
  | cons x xs ih => cases x <;> simp [invokes, ih]

@[simp]
theorem get_natCast (s : Sys) (n : Nat) : s.get (n : Int) = s.fds n := by
  simp [Sys.get]
@[simp]
theorem get_one (s : Sys) : s.get 1 = s.fds 1 := by
  simp [Sys.get]
@[simp]
theorem get_two (s : Sys) : s.get 2 = s.fds 2 := by
  simp [Sys.get]

theorem dup2_nat {s : Sys} {o : Obj} (a b : Nat) (h : s.fds a = some o) (hb : b < s.limit) :
    dup2 (a : Int) (b : Int) s = (s.put b (some o)).log (Event.dup2 a b) := by
  simp [dup2, h, hb]

theorem close_nat (s : Sys) (a : Nat) :
    close (a : Int) s = (s.put a none).log (Event.close a) := by
  simp [close]

theorem ite_some_eq_none {α : Type} {c : Prop} [Decidable c] {x : α} {y : Option α}
    (h : (if c then some x else y) = none) : ¬ c ∧ y = none := by
  by_cases hc : c
  · simp [hc] at h
  · simp [hc] at h
    exact ⟨hc, h⟩

theorem createPipes_ok {env : Env} {s0 : Sys} (hp : pipesCreated env s0 = true) :
    ∃ r1 w1 r2 w2 : Nat,
      createPipes env s0 = (afterPipes s0 r1 w1 r2 w2, some ⟨r1, w1, r2, w2⟩) ∧
      [r1, w1, r2, w2].Nodup ∧
      (∀ x ∈ [r1, w1, r2, w2], s0.fds x = none ∧ x < s0.limit) := by
  unfold pipesCreated at hp
  unfold createPipes at hp ⊢
  cases hpo : pipe env.pipeOutDenied Side.out s0 with
  | mk s1 res1 =>
    rw [hpo] at hp
    cases res1 with
    | none => simp at hp
    | some po =>
      obtain ⟨r1, w1, rfl, hrw1, hr1l, hw1l, hr1, hw1, rfl⟩ := pipe_some hpo
      simp only at hp ⊢
      cases hpe : pipe env.pipeErrDenied Side.err
          (((s0.put r1 (some (Obj.pipeRd Side.out))).put w1 (some (Obj.pipeWr Side.out))).log
            (Event.pipe (some (r1, w1)))) with
      | mk s2 res2 =>
        cases res2 with
        | none => rw [hpe] at hp; simp at hp
        | some pe =>
          obtain ⟨r2, w2, rfl, hrw2, hr2l, hw2l, hr2, hw2, rfl⟩ := pipe_some hpe
          simp only [log_fds, put_fds, log_limit, put_limit] at hr2 hw2 hr2l hw2l
          obtain ⟨b2, hr2⟩ := ite_some_eq_none hr2
          obtain ⟨b1, hr2⟩ := ite_some_eq_none hr2
          obtain ⟨b4, hw2⟩ := ite_some_eq_none hw2
          obtain ⟨b3, hw2⟩ := ite_some_eq_none hw2
          refine ⟨r1, w1, r2, w2, rfl, ?_, ?_⟩
          · simp only [List.nodup_cons, List.mem_cons, List.mem_singleton, List.not_mem_nil,
              List.nodup_nil, or_false, not_or, and_true, not_false_eq_true]
            omega
          · intro x hx
            simp only [List.mem_cons, List.mem_singleton, List.not_mem_nil, or_false] at hx
            rcases hx with rfl | rfl | rfl | rfl <;> exact ⟨by assumption, by assumption⟩

theorem saveStreams_ok {env : Env} {s : Sys}
    (hd1 : 0 ≤ (saveStreams env s).2.1) (hd2 : 0 ≤ (saveStreams env s).2.2) :
    ∃ (n1 n2 : Nat) (o1 o2 : Obj),
      saveStreams env s = (afterDups s o1 o2 n1 n2, (n1 : Int), (n2 : Int)) ∧
      s.fds 1 = some o1 ∧ (n1 ≠ 2 → s.fds 2 = some o2) ∧ n1 ≠ n2 ∧
      s.fds n1 = none ∧ s.fds n2 = none ∧ n1 < s.limit ∧ n2 < s.limit := by
  simp only [saveStreams] at hd1 hd2 ⊢
  obtain ⟨n1, o1, hg1, hn1l, hn1, e1⟩ := dup_nonneg hd1
  rw [e1] at hd2 ⊢
  obtain ⟨n2, o2, hg2, hn2l, hn2, e2⟩ := dup_nonneg hd2
  rw [e2]
  simp only [log_fds, put_fds, log_limit, put_limit, get_one, get_two] at *
  have d0 : n2 ≠ n1 := by rintro rfl; simp at hn2
  simp only [d0, if_false] at hn2
  refine ⟨n1, n2, o1, o2, rfl, hg1, ?_, Ne.symm d0, hn1, hn2, hn1l, hn2l⟩
  intro h
  simpa [Ne.symm h] using hg2

theorem nodup_eight {r1 w1 r2 w2 n1 n2 : Nat} (hnd : [r1, w1, r2, w2].Nodup)
    (hr1 : r1 ≠ 1 ∧ r1 ≠ 2) (hw1 : w1 ≠ 1 ∧ w1 ≠ 2) (hr2 : r2 ≠ 1 ∧ r2 ≠ 2)
    (hw2 : w2 ≠ 1 ∧ w2 ≠ 2) (hn : n1 ≠ n2)
    (hn1 : n1 ≠ w2 ∧ n1 ≠ r2 ∧ n1 ≠ w1 ∧ n1 ≠ r1 ∧ n1 ≠ 1 ∧ n1 ≠ 2)
    (hn2 : n2 ≠ w2 ∧ n2 ≠ r2 ∧ n2 ≠ w1 ∧ n2 ≠ r1 ∧ n2 ≠ 1 ∧ n2 ≠ 2) :
    [r1, w1, r2, w2, n1, n2, 1, 2].Nodup := by
  simp only [List.nodup_cons, List.mem_cons, List.mem_singleton, List.not_mem_nil,
    List.nodup_nil, or_false, not_or, and_true, not_false_eq_true] at hnd ⊢
  obtain ⟨⟨p1, p2, p3⟩, ⟨p4, p5⟩, p6⟩ := hnd
  obtain ⟨q1, q2, q3, q4, q5, q6⟩ := hn1
  obtain ⟨t1, t2, t3, t4, t5, t6⟩ := hn2
  refine ⟨⟨p1, p2, p3, Ne.symm q4, Ne.symm t4, hr1.1, hr1.2⟩,
    ⟨p4, p5, Ne.symm q3, Ne.symm t3, hw1.1, hw1.2⟩,
    ⟨p6, Ne.symm q2, Ne.symm t2, hr2.1, hr2.2⟩,
    ⟨Ne.symm q1, Ne.symm t1, hw2.1, hw2.2⟩, ⟨hn, q5, q6⟩, ⟨t5, t6⟩, by decide⟩

/-- The descriptors handed out by a setup in which nothing failed, with
    descriptors 1 and 2 open beforehand. -/
theorem setup_ok {env : Env} {s0 : Sys} {a b : Obj}
    (h1 : s0.fds 1 = some a) (h2 : s0.fds 2 = some b)
    (hp : pipesCreated env s0 = true) (hd : dupsSucceed env s0 = true) :
    ∃ r1 w1 r2 w2 n1 n2 : Nat,
      createPipes env s0 = (afterPipes s0 r1 w1 r2 w2, some ⟨r1, w1, r2, w2⟩) ∧
      saveStreams env (afterPipes s0 r1 w1 r2 w2) =
        (afterDups (afterPipes s0 r1 w1 r2 w2) a b n1 n2, (n1 : Int), (n2 : Int)) ∧
      [r1, w1, r2, w2, n1, n2, 1, 2].Nodup ∧
      (∀ x ∈ [r1, w1, r2, w2, n1, n2], s0.fds x = none ∧ x < s0.limit) := by
  obtain ⟨r1, w1, r2, w2, hc, hnd, hfree⟩ := createPipes_ok hp
  unfold dupsSucceed at hd
  rw [hc] at hd
  simp only [Bool.and_eq_true, decide_eq_true_eq] at hd
  obtain ⟨n1, n2, o1, o2, hs, g1, g2, hn, f1, f2, l1, l2⟩ := saveStreams_ok hd.1 hd.2
  have hr1 := hfree r1 (by simp)
  have hw1 := hfree w1 (by simp)
  have hr2 := hfree r2 (by simp)
  have hw2 := hfree w2 (by simp)
  have a1 : r1 ≠ 1 := by rintro rfl; simp [h1] at hr1
  have a2 : r1 ≠ 2 := by rintro rfl; simp [h2] at hr1
  have a3 : w1 ≠ 1 := by rintro rfl; simp [h1] at hw1
  have a4 : w1 ≠ 2 := by rintro rfl; simp [h2] at hw1
  have a5 : r2 ≠ 1 := by rintro rfl; simp [h1] at hr2
  have a6 : r2 ≠ 2 := by rintro rfl; simp [h2] at hr2
  have a7 : w2 ≠ 1 := by rintro rfl; simp [h1] at hw2
  have a8 : w2 ≠ 2 := by rintro rfl; simp [h2] at hw2
  simp only [afterPipes, log_fds, put_fds, log_limit, put_limit] at f1 f2 g1 g2 l1 l2
  obtain ⟨c1, f1⟩ := ite_some_eq_none f1
  obtain ⟨c2, f1⟩ := ite_some_eq_none f1
  obtain ⟨c3, f1⟩ := ite_some_eq_none f1
  obtain ⟨c4, f1⟩ := ite_some_eq_none f1
  obtain ⟨d1, f2⟩ := ite_some_eq_none f2
  obtain ⟨d2, f2⟩ := ite_some_eq_none f2
  obtain ⟨d3, f2⟩ := ite_some_eq_none f2
  obtain ⟨d4, f2⟩ := ite_some_eq_none f2
  have c5 : n1 ≠ 1 := by rintro rfl; simp [h1] at f1
  have c6 : n1 ≠ 2 := by rintro rfl; simp [h2] at f1
  have d5 : n2 ≠ 1 := by rintro rfl; simp [h1] at f2
  have d6 : n2 ≠ 2 := by rintro rfl; simp [h2] at f2
  have g2 := g2 c6
  simp only [Ne.symm a7, Ne.symm a5, Ne.symm a3, Ne.symm a1, Ne.symm a8, Ne.symm a6,
    Ne.symm a4, Ne.symm a2, if_false, h1, h2, Option.some.injEq] at g1 g2
  subst g1 g2
  refine ⟨r1, w1, r2, w2, n1, n2, hc, hs, ?_, ?_⟩
  · exact nodup_eight hnd ⟨a1, a2⟩ ⟨a3, a4⟩ ⟨a5, a6⟩ ⟨a7, a8⟩ hn
      ⟨c1, c2, c3, c4, c5, c6⟩ ⟨d1, d2, d3, d4, d5, d6⟩
  · intro x hx
    simp only [List.mem_cons, List.mem_singleton, List.not_mem_nil, or_false] at hx
    rcases hx with rfl | rfl | rfl | rfl | rfl | rfl
    · exact hr1
    · exact hw1
    · exact hr2
    · exact hw2
    · exact ⟨f1, l1⟩
    · exact ⟨f2, l2⟩

@[simp]
theorem dup2_limit (a b : Int) (s : Sys) : (dup2 a b s).limit = s.limit := by
  unfold dup2; split <;> [rfl; (split <;> rfl)]
@[simp]
theorem dup2_outBuf (a b : Int) (s : Sys) : (dup2 a b s).outBuf = s.outBuf := by
  unfold dup2; split <;> [rfl; (split <;> rfl)]
@[simp]
theorem dup2_errBuf (a b : Int) (s : Sys) : (dup2 a b s).errBuf = s.errBuf := by
  unfold dup2; split <;> [rfl; (split <;> rfl)]
@[simp]
theorem dup2_invokes (a b : Int) (s : Sys) :
    invokes (dup2 a b s).trace = invokes s.trace := by
  unfold dup2; split <;> [simp [invokes]; (split <;> simp [invokes])]
@[simp]
theorem close_limit (a : Int) (s : Sys) : (close a s).limit = s.limit := by
  unfold close; split <;> rfl
@[simp]
theorem close_outBuf (a : Int) (s : Sys) : (close a s).outBuf = s.outBuf := by
  unfold close; split <;> rfl
@[simp]
theorem close_errBuf (a : Int) (s : Sys) : (close a s).errBuf = s.errBuf := by
  unfold close; split <;> rfl
@[simp]
theorem close_invokes (a : Int) (s : Sys) :
    invokes (close a s).trace = invokes s.trace := by
  unfold close; split <;> simp [invokes]
@[simp]
theorem close_fds_nat (a : Nat) (s : Sys) :
    (close (a : Int) s).fds = fun i => if i = a then none else s.fds i := by
  simp [close]

/-- Draining a pipe read end none of whose write ends is open: the loop ends
    with a `read` that returns 0 after reads that each returned data, the
    pipe is empty afterwards and nothing else changed. -/
theorem drainLoop_done (p : Side) (fd : Int) :
    ∀ (fuel : Nat) (sched : List Nat) (s : Sys) (cap : List Byte),
      s.get fd = some (Obj.pipeRd p) → writerOpen s p = false → (s.buf p).length < fuel →
      ∃ s1, drainLoop fuel sched fd s cap
          = (s1, Outcome.done (cap ++ capturedLoop fuel sched (s.buf p))) ∧
        s1.fds = s.fds ∧ s1.limit = s.limit ∧ s1.buf p = [] ∧
        (∀ q, q ≠ p → s1.buf q = s.buf q) ∧
        ∃ reads, s1.trace = s.trace ++ reads ++ [Event.read fd 0] ∧
          ∀ e ∈ reads, ∃ k : Nat, 0 < k ∧ e = Event.read fd (k : Int) := by
  intro fuel
  induction fuel with
  | zero => intro sched s cap _ _ h; omega
  | succ fuel ih =>
    intro sched s cap hg hw hl
    by_cases hb : s.buf p = []
    · refine ⟨s.log (Event.read fd 0), ?_, rfl, rfl, by simpa [Sys.buf] using hb, ?_, [], ?_, ?_⟩
      · simp [drainLoop, read, hg, hb, hw, capturedLoop]
      · intro q _; cases q <;> rfl
      · simp
      · intro e he; cases he
    · have hpos : 0 < (s.buf p).length := List.length_pos.mpr hb
      have hk := chunkLen_pos (sched.headD 1023) (s.buf p).length
      obtain ⟨s1, h1, h2, h3, h4, h5, reads, h6, h7⟩ := ih sched.tail
        ((s.setBuf p ((s.buf p).drop (chunkLen (sched.headD 1023) (s.buf p).length))).log
          (Event.read fd (chunkLen (sched.headD 1023) (s.buf p).length)))
        (cap ++ c_str ((s.buf p).take (chunkLen (sched.headD 1023) (s.buf p).length)))
        (by rw [get_congr (s := s) (by simp)]; exact hg)
        (by rw [writerOpen_congr (s := s) (by simp) (by simp)]; exact hw)
        (by
          have : ((s.setBuf p ((s.buf p).drop (chunkLen (sched.headD 1023)
              (s.buf p).length))).log (Event.read fd (chunkLen (sched.headD 1023)
              (s.buf p).length))).buf p
              = (s.buf p).drop (chunkLen (sched.headD 1023) (s.buf p).length) := by
            cases p <;> rfl
          rw [this, List.length_drop]; omega)
      refine ⟨s1, ?_, ?_, ?_, h4, ?_,
        Event.read fd (chunkLen (sched.headD 1023) (s.buf p).length) :: reads, ?_, ?_⟩
      · simp only [drainLoop, read, hg, hb, if_false]
        rw [h1]
        have : ((s.setBuf p ((s.buf p).drop (chunkLen (sched.headD 1023)
            (s.buf p).length))).log (Event.read fd (chunkLen (sched.headD 1023)
            (s.buf p).length))).buf p
            = (s.buf p).drop (chunkLen (sched.headD 1023) (s.buf p).length) := by
          cases p <;> rfl
        rw [this]
        simp [capturedLoop, hb, List.append_assoc]
      · rw [h2]; simp
      · rw [h3]; simp
      · intro q hq
        rw [h5 q hq]
        cases p <;> cases q <;> first | rfl | exact absurd rfl hq
      · rw [h6]
        simp
      · intro e he
        rcases List.mem_cons.mp he with rfl | he
        · exact ⟨_, hk, rfl⟩
        · exact h7 e he

@[simp]
theorem dup2_trace (a b : Int) (s : Sys) : (dup2 a b s).trace = s.trace ++ [Event.dup2 a b] := by
  unfold dup2; split <;> [rfl; (split <;> rfl)]

@[simp]
theorem close_trace (a : Int) (s : Sys) : (close a s).trace = s.trace ++ [Event.close a] := by
  unfold close; split <;> rfl

@[simp]
theorem write_limit (c : Nat) (a : Int) (d : List Byte) (s : Sys) :
    (write c a d s).1.limit = s.limit := by
  unfold write; split <;> [split; skip] <;> simp

@[simp]
theorem write_fds (c : Nat) (a : Int) (d : List Byte) (s : Sys) :
    (write c a d s).1.fds = s.fds := by
  unfold write; split <;> [split; skip] <;> simp

@[simp]
theorem write_trace (c : Nat) (a : Int) (d : List Byte) (s : Sys) :
    (write c a d s).1.trace = s.trace := by
  unfold write; split <;> [split; skip] <;> simp

theorem dup2_fds_one {s : Sys} {o : Obj} (a : Nat) (h : s.fds a = some o) (hl : 1 < s.limit) :
    (dup2 (a : Int) 1 s).fds = fun i => if i = 1 then some o else s.fds i := by
  simp [dup2, h, hl]

theorem dup2_fds_two {s : Sys} {o : Obj} (a : Nat) (h : s.fds a = some o) (hl : 2 < s.limit) :
    (dup2 (a : Int) 2 s).fds = fun i => if i = 2 then some o else s.fds i := by
  simp [dup2, h, hl]

theorem write_one_buf {s : Sys} {p : Side} {c : Nat} (d : List Byte)
    (h : s.fds 1 = some (Obj.pipeWr p)) (hc : (s.buf p).length + d.length ≤ c) :
    write c 1 d s = (s.setBuf p (s.buf p ++ d), true) := by
  simp [write, h, hc]

theorem write_two_buf {s : Sys} {p : Side} {c : Nat} (d : List Byte)
    (h : s.fds 2 = some (Obj.pipeWr p)) (hc : (s.buf p).length + d.length ≤ c) :
    write c 2 d s = (s.setBuf p (s.buf p ++ d), true) := by
  simp [write, h, hc]

theorem limit_gt_two {s0 : Sys} {r1 w1 : Nat} (hne : r1 ≠ w1) (hr : r1 < s0.limit)
    (hw : w1 < s0.limit) (a1 : r1 ≠ 1) (a2 : r1 ≠ 2) (a3 : w1 ≠ 1) (a4 : w1 ≠ 2) :
    2 < s0.limit := by
  omega

/-- The state in which the first drain `read` is issued, for a run whose
    setup succeeded with descriptors 1 and 2 open beforehand and whose tool
    output fits into the pipes: the table is the original one plus the two
    read ends, and the pipes hold what the tool wrote. -/
theorem runToRestore_ok {env : Env} {s0 : Sys} {a b : Obj} (args : List (List Byte))
    (h1 : s0.fds 1 = some a) (h2 : s0.fds 2 = some b)
    (hp : pipesCreated env s0 = true) (hd : dupsSucceed env s0 = true)
    (hO : s0.outBuf.length + (env.dtc_main (args.length : Int) (args.map c_str)).wroteOut.length
      ≤ env.pipeCap)
    (hE : s0.errBuf.length + (env.dtc_main (args.length : Int) (args.map c_str)).wroteErr.length
      ≤ env.pipeCap) :
    ∃ (r1 w1 r2 w2 n1 n2 : Nat),
      createPipes env s0 = (afterPipes s0 r1 w1 r2 w2, some ⟨r1, w1, r2, w2⟩) ∧
      saveStreams env (afterPipes s0 r1 w1 r2 w2) =
        (afterDups (afterPipes s0 r1 w1 r2 w2) a b n1 n2, (n1 : Int), (n2 : Int)) ∧
      [r1, w1, r2, w2, n1, n2, 1, 2].Nodup ∧
      (∀ x ∈ [r1, w1, r2, w2, n1, n2], s0.fds x = none ∧ x < s0.limit) ∧
      (runToRestore env s0 args).2 =
        Outcome.done (some ⟨r1, r2,
          (afterSetjmp (env.dtc_main (args.length : Int) (args.map c_str)).exit).1,
          (afterSetjmp (env.dtc_main (args.length : Int) (args.map c_str)).exit).2⟩) ∧
      (runToRestore env s0 args).1.limit = s0.limit ∧
      ((runToRestore env s0 args).1.fds = fun i => if i = r1 then some (Obj.pipeRd Side.out)
        else if i = r2 then some (Obj.pipeRd Side.err) else s0.fds i) ∧
      (runToRestore env s0 args).1.outBuf
        = s0.outBuf ++ (env.dtc_main (args.length : Int) (args.map c_str)).wroteOut ∧
      (runToRestore env s0 args).1.errBuf
        = s0.errBuf ++ (env.dtc_main (args.length : Int) (args.map c_str)).wroteErr ∧
      (runToRestore env s0 args).1.trace = s0.trace ++
        callsThroughRestore r1 w1 r2 w2 n1 n2 (args.length : Int) (args.map c_str) := by
  obtain ⟨r1, w1, r2, w2, n1, n2, hc, hs, hnd, hfree⟩ := setup_ok h1 h2 hp hd
  refine ⟨r1, w1, r2, w2, n1, n2, hc, hs, hnd, hfree, ?_⟩
  have hr1 := hfree r1 (by simp)
  have hw1 := hfree w1 (by simp)
  have hr2 := hfree r2 (by simp)
  have hw2 := hfree w2 (by simp)
  have hn1 := hfree n1 (by simp)
  have hn2 := hfree n2 (by simp)
  simp only [List.nodup_cons, List.mem_cons, List.mem_singleton, List.not_mem_nil,
    List.nodup_nil, or_false, not_or, and_true, not_false_eq_true] at hnd
  obtain ⟨⟨p1, p2, p3, p4, p5, p6, p7⟩, ⟨q1, q2, q3, q4, q5, q6⟩, ⟨t1, t2, t3, t4, t5⟩,
    ⟨u1, u2, u3, u4⟩, ⟨v1, v2, v3⟩, ⟨x1, x2⟩, _⟩ := hnd
  have hlim : 2 < s0.limit := limit_gt_two p1 hr1.2 hw1.2 p6 p7 q5 q6
  -- the state after the two `dup`
  have e0 : (afterDups (afterPipes s0 r1 w1 r2 w2) a b n1 n2).fds = fun i =>
      if i = n2 then some b else if i = n1 then some a
      else if i = w2 then some (Obj.pipeWr Side.err)
      else if i = r2 then some (Obj.pipeRd Side.err)
      else if i = w1 then some (Obj.pipeWr Side.out)
      else if i = r1 then some (Obj.pipeRd Side.out) else s0.fds i := by
    simp [afterDups, afterPipes]
  have l0 : (afterDups (afterPipes s0 r1 w1 r2 w2) a b n1 n2).limit = s0.limit := by
    simp [afterDups, afterPipes]
  have b0 : (afterDups (afterPipes s0 r1 w1 r2 w2) a b n1 n2).outBuf = s0.outBuf := by
    simp [afterDups, afterPipes]
  have c0 : (afterDups (afterPipes s0 r1 w1 r2 w2) a b n1 n2).errBuf = s0.errBuf := by
    simp [afterDups, afterPipes]
  have t0 : (afterDups (afterPipes s0 r1 w1 r2 w2) a b n1 n2).trace
      = s0.trace ++ [Event.pipe (some (r1, w1)), Event.pipe (some (r2, w2)),
          Event.dup 1 n1, Event.dup 2 n2] := by
    simp [afterDups, afterPipes]
  have hrun0 : runToRestore env s0 args =
      (match callTool env (args.length : Int) (args.map c_str)
          (redirect ⟨r1, w1, r2, w2⟩ (afterDups (afterPipes s0 r1 w1 r2 w2) a b n1 n2)) with
        | (t, Outcome.done rc) =>
          (restore (n1 : Int) (n2 : Int) t, Outcome.done (some ⟨r1, r2, rc.1, rc.2⟩))
        | (t, Outcome.hang) => (t, Outcome.hang)
        | (t, Outcome.fuel) => (t, Outcome.fuel)) := by
    simp only [runToRestore, hc, hs]
  generalize afterDups (afterPipes s0 r1 w1 r2 w2) a b n1 n2 = X0 at e0 l0 b0 c0 t0 hrun0
  -- redirect
  have e1 : (dup2 (w1 : Int) 1 X0).fds = fun i =>
      if i = 1 then some (Obj.pipeWr Side.out) else X0.fds i :=
    dup2_fds_one w1 (by simp [e0, *]) (by omega)
  have e2 : (dup2 (w2 : Int) 2 (dup2 (w1 : Int) 1 X0)).fds = fun i =>
      if i = 2 then some (Obj.pipeWr Side.err) else (dup2 (w1 : Int) 1 X0).fds i :=
    dup2_fds_two w2 (by simp [e1, e0, *]) (by simp; omega)
  have eR : (redirect ⟨r1, w1, r2, w2⟩ X0).fds = fun i =>
      if i = w2 then none else if i = w1 then none
      else if i = 2 then some (Obj.pipeWr Side.err)
      else if i = 1 then some (Obj.pipeWr Side.out) else X0.fds i := by
    simp only [redirect, close_fds_nat, e2, e1]
  have lR : (redirect ⟨r1, w1, r2, w2⟩ X0).limit = s0.limit := by simp [redirect, l0]
  have bR : (redirect ⟨r1, w1, r2, w2⟩ X0).outBuf = s0.outBuf := by simp [redirect, b0]
  have cR : (redirect ⟨r1, w1, r2, w2⟩ X0).errBuf = s0.errBuf := by simp [redirect, c0]
  have tR : (redirect ⟨r1, w1, r2, w2⟩ X0).trace = s0.trace ++
      [Event.pipe (some (r1, w1)), Event.pipe (some (r2, w2)), Event.dup 1 n1, Event.dup 2 n2,
        Event.dup2 w1 1, Event.dup2 w2 2, Event.close w1, Event.close w2] := by
    simp [redirect, t0]
  generalize redirect ⟨r1, w1, r2, w2⟩ X0 = R at eR lR bR cR tR hrun0
  -- the tool writes into the pipes
  have w1e : write env.pipeCap 1 (env.dtc_main (args.length : Int) (args.map c_str)).wroteOut
        (R.log (Event.invoke (args.length : Int) (args.map c_str)))
      = ((R.log (Event.invoke (args.length : Int) (args.map c_str))).setBuf Side.out
          (R.outBuf ++ (env.dtc_main (args.length : Int) (args.map c_str)).wroteOut), true) :=
    write_one_buf _ (by simp [eR, Ne.symm u3, Ne.symm q5]) (by simpa [Sys.buf, bR] using hO)
  have w2e : write env.pipeCap 2 (env.dtc_main (args.length : Int) (args.map c_str)).wroteErr
        ((R.log (Event.invoke (args.length : Int) (args.map c_str))).setBuf Side.out
          (R.outBuf ++ (env.dtc_main (args.length : Int) (args.map c_str)).wroteOut))
      = (((R.log (Event.invoke (args.length : Int) (args.map c_str))).setBuf Side.out
          (R.outBuf ++ (env.dtc_main (args.length : Int) (args.map c_str)).wroteOut)).setBuf
            Side.err (R.errBuf ++ (env.dtc_main (args.length : Int) (args.map c_str)).wroteErr),
          true) :=
    write_two_buf _ (by simp [eR, Ne.symm u4, Ne.symm q6])
      (by simpa [Sys.buf, Sys.setBuf, cR] using hE)
  have hrun : runToRestore env s0 args =
      (restore (n1 : Int) (n2 : Int)
        (((R.log (Event.invoke (args.length : Int) (args.map c_str))).setBuf Side.out
          (R.outBuf ++ (env.dtc_main (args.length : Int) (args.map c_str)).wroteOut)).setBuf
            Side.err (R.errBuf ++ (env.dtc_main (args.length : Int) (args.map c_str)).wroteErr)),
        Outcome.done (some ⟨r1, r2,
          (afterSetjmp (env.dtc_main (args.length : Int) (args.map c_str)).exit).1,
          (afterSetjmp (env.dtc_main (args.length : Int) (args.map c_str)).exit).2⟩)) := by
    rw [hrun0]
    simp only [callTool, w1e, w2e]
  rw [hrun]
  refine ⟨rfl, ?_⟩
  simp only
  generalize (env.dtc_main (args.length : Int) (args.map c_str)).wroteErr = E
  generalize (env.dtc_main (args.length : Int) (args.map c_str)).wroteOut = O
  have eT : (((R.log (Event.invoke (args.length : Int) (args.map c_str))).setBuf Side.out
      (R.outBuf ++ O)).setBuf Side.err (R.errBuf ++ E)).fds = R.fds := by simp
  have lT : (((R.log (Event.invoke (args.length : Int) (args.map c_str))).setBuf Side.out
      (R.outBuf ++ O)).setBuf Side.err (R.errBuf ++ E)).limit = s0.limit := by simp [lR]
  have bT : (((R.log (Event.invoke (args.length : Int) (args.map c_str))).setBuf Side.out
      (R.outBuf ++ O)).setBuf Side.err (R.errBuf ++ E)).outBuf = s0.outBuf ++ O := by
    simp [Sys.setBuf, bR]
  have cT : (((R.log (Event.invoke (args.length : Int) (args.map c_str))).setBuf Side.out
      (R.outBuf ++ O)).setBuf Side.err (R.errBuf ++ E)).errBuf = s0.errBuf ++ E := by
    simp [Sys.setBuf, cR]
  have tT : (((R.log (Event.invoke (args.length : Int) (args.map c_str))).setBuf
      Side.out (R.outBuf ++ O)).setBuf Side.err (R.errBuf ++ E)).trace
      = s0.trace ++
        [Event.pipe (some (r1, w1)), Event.pipe (some (r2, w2)), Event.dup 1 n1, Event.dup 2 n2,
          Event.dup2 w1 1, Event.dup2 w2 2, Event.close w1, Event.close w2,
          Event.invoke (args.length : Int) (args.map c_str)] := by
    simp [tR]
  generalize ((R.log (Event.invoke (args.length : Int) (args.map c_str))).setBuf Side.out
      (R.outBuf ++ O)).setBuf Side.err (R.errBuf ++ E) = T at eT lT bT cT tT ⊢
  -- restore
  have e3 : (dup2 (n1 : Int) 1 T).fds = fun i => if i = 1 then some a else T.fds i :=
    dup2_fds_one n1 (by simp [eT, eR, e0, Ne.symm u1, Ne.symm q3, v1, v2, v3]) (by omega)
  have e4 : (dup2 (n2 : Int) 2 (dup2 (n1 : Int) 1 T)).fds = fun i =>
      if i = 2 then some b else (dup2 (n1 : Int) 1 T).fds i :=
    dup2_fds_two n2 (by simp [e3, eT, eR, e0, Ne.symm u2, Ne.symm q4, x1, x2]) (by simp; omega)
  refine ⟨by simp [restore, lT], ?_, by simp [restore, bT], by simp [restore, cT],
    by simp [restore, tT, callsThroughRestore]⟩
  simp only [restore, close_fds_nat, e4, e3, eT, eR, e0]
  funext i
  by_cases c1 : i = n2
  · subst c1; simp [hn2.1, Ne.symm p5, Ne.symm t3]
  by_cases c2 : i = n1
  · subst c2; simp [hn1.1, Ne.symm p4, Ne.symm t2, v1]
  by_cases c3 : i = 2
  · subst c3; simp [h2, Ne.symm p7, Ne.symm t5, Ne.symm x2, Ne.symm v3]
  by_cases c4 : i = 1
  · subst c4; simp [h1, Ne.symm p6, Ne.symm t4, Ne.symm x1, Ne.symm v2]
  by_cases c5 : i = w2
  · subst c5; simp [hw2.1, Ne.symm p3, Ne.symm t1, u1, u2, u3, u4]
  by_cases c6 : i = w1
  · subst c6; simp [hw1.1, Ne.symm p1, q1, q2, q3, q4, q5, q6]
  by_cases c7 : i = r2
  · rw [c7]; simp [Ne.symm p2, t1, t2, t3, t4, t5, Ne.symm q1]
  simp [c1, c2, c3, c4, c5, c6, c7]

theorem anyWriter_false {fds : Nat → Option Obj} {p : Side}
    (h : ∀ i, fds i ≠ some (Obj.pipeWr p)) : ∀ n, anyWriter fds p n = false := by
  intro n
  induction n with
  | zero => rfl
  | succ n ih => simp [anyWriter, ih, h n]

theorem init_fds_ne_pipe (limit : Nat) (host : Nat → Option Nat) (i : Nat) (o : Obj)
    (ho : ∀ id, o ≠ Obj.host id) : (Sys.init limit host).fds i ≠ some o := by
  simp only [Sys.init]
  cases host i with
  | none => simp
  | some id => simpa using (ho id).symm

theorem captured_eq_of_fuel (f : Nat) (sched : List Nat) (buf : List Byte)
    (h : buf.length < f) : capturedLoop f sched buf = captured sched buf :=
  capturedLoop_fuel f (buf.length + 1) sched buf h (by omega)

theorem run_of_frame {env : Env} {s0 : Sys} {args : List (List Byte)} {f : Frame}
    (h : (runToRestore env s0 args).2 = Outcome.done (some f)) :
    run_dtc_command env s0 args = drainAndClassify env (runToRestore env s0 args).1 f := by
  unfold run_dtc_command
  cases hR : runToRestore env s0 args with
  | mk s r =>
    rw [hR] at h
    simp only at h
    subst h
    rfl

/-- A complete run whose setup succeeded, with descriptors 1 and 2 open
    beforehand and a tool output that fits into the pipes: it returns, the
    table is back to the original one, and after the thirteen calls of lines
    51-90 each pipe is read to its end and closed. -/
theorem run_ok (env : Env) (limit : Nat) (host : Nat → Option Nat) (args : List (List Byte))
    {a b : Nat} (h1 : host 1 = some a) (h2 : host 2 = some b)
    (hp : pipesCreated env (Sys.init limit host) = true)
    (hd : dupsSucceed env (Sys.init limit host) = true)
    (hO : (env.dtc_main (args.length : Int) (args.map c_str)).wroteOut.length ≤ env.pipeCap)
    (hE : (env.dtc_main (args.length : Int) (args.map c_str)).wroteErr.length ≤ env.pipeCap) :
    (run_dtc_command env (Sys.init limit host) args).2
      = Outcome.done (classify
          (afterSetjmp (env.dtc_main (args.length : Int) (args.map c_str)).exit).1
          ((afterSetjmp (env.dtc_main (args.length : Int) (args.map c_str)).exit).2
            ++ captured env.schedOut (env.dtc_main (args.length : Int) (args.map c_str)).wroteOut
            ++ captured env.schedErr (env.dtc_main (args.length : Int) (args.map c_str)).wroteErr)) ∧
    (run_dtc_command env (Sys.init limit host) args).1.fds = (Sys.init limit host).fds ∧
    (run_dtc_command env (Sys.init limit host) args).1.limit = limit ∧
    ∃ (r1 w1 r2 w2 n1 n2 : Nat) (outReads errReads : List Event),
      (createPipes env (Sys.init limit host)).2 = some ⟨r1, w1, r2, w2⟩ ∧
      (saveStreams env (createPipes env (Sys.init limit host)).1).2 = ((n1 : Int), (n2 : Int)) ∧
      (run_dtc_command env (Sys.init limit host) args).1.trace
        = callsThroughRestore r1 w1 r2 w2 n1 n2 (args.length : Int) (args.map c_str)
          ++ outReads ++ [Event.read r1 0, Event.close r1]
          ++ errReads ++ [Event.read r2 0, Event.close r2] ∧
      (∀ e ∈ outReads, ∃ k : Nat, 0 < k ∧ e = Event.read r1 (k : Int)) ∧
      (∀ e ∈ errReads, ∃ k : Nat, 0 < k ∧ e = Event.read r2 (k : Int)) := by
  have g1 : (Sys.init limit host).fds 1 = some (Obj.host a) := by simp [Sys.init, h1]
  have g2 : (Sys.init limit host).fds 2 = some (Obj.host b) := by simp [Sys.init, h2]
  obtain ⟨r1, w1, r2, w2, n1, n2, hc, hs, hnd, hfree, hf, hl, hfds, hob, heb, htr⟩ :=
    runToRestore_ok args g1 g2 hp hd (by simpa [Sys.init] using hO) (by simpa [Sys.init] using hE)
  have hr1 := (hfree r1 (by simp)).1
  have hr2 := (hfree r2 (by simp)).1
  have hne : r1 ≠ r2 := by
    intro e
    simp only [List.nodup_cons, List.mem_cons] at hnd
    exact hnd.1 (Or.inr (Or.inl e))
  rw [run_of_frame hf]
  clear hO hE
  generalize env.dtc_main (args.length : Int) (args.map c_str) = tr at *
  generalize runToRestore env (Sys.init limit host) args = R at *
  obtain ⟨sR, fr⟩ := R
  simp only at hf hl hfds hob heb htr ⊢
  clear hf
  simp only [drainAndClassify, drainBoth]
  have hnow : ∀ (p : Side) (i : Nat), sR.fds i ≠ some (Obj.pipeWr p) := by
    intro p i
    rw [hfds]
    by_cases c1 : i = r1
    · simp [c1]
    by_cases c2 : i = r2
    · simp [c2, Ne.symm hne]
    simp only [c1, c2, if_false]
    exact init_fds_ne_pipe limit host i _ (by intro id h; cases h)
  have hob' : sR.outBuf = tr.wroteOut := by simpa [Sys.init] using hob
  have heb' : sR.errBuf = tr.wroteErr := by simpa [Sys.init] using heb
  have htr' : sR.trace
      = callsThroughRestore r1 w1 r2 w2 n1 n2 (args.length : Int) (args.map c_str) := by
    simpa [Sys.init] using htr
  -- drain of stdout
  obtain ⟨s1, d1, f1, l1, b1, o1, rd1, t1, k1⟩ := drainLoop_done Side.out (r1 : Int)
    (sR.outBuf.length + sR.errBuf.length + 1) env.schedOut sR (afterSetjmp tr.exit).2
    (by simp [hfds]) (by simp [writerOpen, anyWriter_false (hnow Side.out)])
    (by simp [Sys.buf]; omega)
  have d1' : drain env.schedOut (r1 : Int) sR (afterSetjmp tr.exit).2 = (s1, _) := d1
  rw [d1']
  simp only
  have e1 := o1 Side.err (by decide)
  simp only [Sys.buf] at b1 e1
  -- drain of stderr
  obtain ⟨s2, d2, f2, l2, b2, o2, rd2, t2, k2⟩ := drainLoop_done Side.err (r2 : Int)
    ((close (r1 : Int) s1).outBuf.length + (close (r1 : Int) s1).errBuf.length + 1)
    env.schedErr (close (r1 : Int) s1)
    ((afterSetjmp tr.exit).2 ++ capturedLoop (sR.outBuf.length + sR.errBuf.length + 1)
      env.schedOut (sR.buf Side.out))
    (by simp [f1, hfds, Ne.symm hne])
    (by
      rw [writerOpen]
      apply anyWriter_false
      intro i
      simp only [close_fds_nat, f1]
      by_cases c : i = r1
      · simp [c]
      · simp only [c, if_false]; exact hnow Side.err i)
    (by simp only [Sys.buf, close_errBuf, close_outBuf]; omega)
  have d2' : drain env.schedErr (r2 : Int) (close (r1 : Int) s1) _ = (s2, _) := d2
  rw [d2']
  simp only
  refine ⟨?_, ?_, ?_, r1, w1, r2, w2, n1, n2, rd1, rd2, ?_, ?_, ?_, k1, k2⟩
  · congr 2
    simp only [Sys.buf, close_errBuf, e1]
    rw [captured_eq_of_fuel _ _ _ (by omega), captured_eq_of_fuel _ _ _ (by simp [b1])]
    rw [hob', heb']
  · simp only [close_fds_nat, f2, f1, hfds]
    funext i
    by_cases c1 : i = r2
    · simp [c1, hr2]
    by_cases c2 : i = r1
    · simp [c2, hr1]
    simp [c1, c2]
  · simp [l2, l1, hl, Sys.init]
  · rw [hc]
  · rw [hc]; simp only [hs]
  · simp only [close_trace, t2, t1, htr', List.append_assoc, List.singleton_append,
      List.cons_append, List.nil_append]

theorem c_str_of_nul_free {b : List Byte} (h : ∀ x ∈ b, x ≠ 0) : c_str b = b := by
  unfold c_str
  rw [List.takeWhile_eq_self_iff]
  intro x hx
  simpa using h x hx

theorem c_str_nul_free (b : List Byte) : ∀ x ∈ c_str b, x ≠ 0 := by
  intro x hx
  unfold c_str at hx
  simpa using List.mem_takeWhile_imp hx

theorem capturedLoop_of_nul_free : ∀ (f : Nat) (sched : List Nat) (buf : List Byte),
    buf.length < f → (∀ x ∈ buf, x ≠ 0) → capturedLoop f sched buf = buf := by
  intro f
  induction f with
  | zero => intro sched buf h; omega
  | succ f ih =>
    intro sched buf hl hz
    unfold capturedLoop
    by_cases hb : buf = []
    · simp [hb]
    · simp only [hb, if_false]
      have hpos : 0 < buf.length := List.length_pos.mpr hb
      have hk := chunkLen_pos (sched.headD 1023) buf.length
      rw [c_str_of_nul_free (fun x hx => hz x (List.mem_of_mem_take hx)),
        ih sched.tail _ (by rw [List.length_drop]; omega)
          (fun x hx => hz x (List.mem_of_mem_drop hx)),
        List.take_append_drop]

theorem captured_of_nul_free (sched : List Nat) {buf : List Byte} (h : ∀ x ∈ buf, x ≠ 0) :
    captured sched buf = buf :=
  capturedLoop_of_nul_free _ sched buf (by omega) h

theorem capturedLoop_nul_free : ∀ (f : Nat) (sched : List Nat) (buf : List Byte),
    ∀ x ∈ capturedLoop f sched buf, x ≠ 0 := by
  intro f
  induction f with
  | zero => intro sched buf x hx; simp [capturedLoop] at hx
  | succ f ih =>
    intro sched buf x hx
    unfold capturedLoop at hx
    by_cases hb : buf = []
    · simp [hb] at hx
    · simp only [hb, if_false, List.mem_append] at hx
      rcases hx with hx | hx
      · exact c_str_nul_free _ x hx
      · exact ih _ _ x hx

theorem digitsLoop_nul_free : ∀ (fuel n : Nat) (acc : List Byte),
    (∀ x ∈ acc, x ≠ 0) → ∀ x ∈ digitsLoop fuel n acc, x ≠ 0 := by
  intro fuel
  induction fuel with
  | zero => intro n acc h; simpa [digitsLoop] using h
  | succ fuel ih =>
    intro n acc h x hx
    unfold digitsLoop at hx
    have hacc : ∀ y ∈ (48 + n % 10) :: acc, y ≠ 0 := by
      intro y hy
      rcases List.mem_cons.mp hy with rfl | hy
      · omega
      · exact h y hy
    split at hx
    · exact hacc x hx
    · exact ih _ _ hacc x hx

theorem to_string_nul_free (n : Int) : ∀ x ∈ to_string n, x ≠ 0 := by
  intro x hx
  unfold to_string at hx
  split at hx
  · rcases List.mem_cons.mp hx with rfl | hx
    · decide
    · exact digitsLoop_nul_free _ _ [] (by simp) x hx
  · exact digitsLoop_nul_free _ _ [] (by simp) x hx

theorem pipe_none {d : Bool} {p : Side} {s s1 : Sys} (h : pipe d p s = (s1, none)) :
    s1 = s.log (Event.pipe none) := by
  unfold pipe at h
  split at h
  · simp at h; exact h.symm
  · split at h
    · simp at h; exact h.symm
    · split at h
      · simp at h; exact h.symm
      · simp at h

@[simp]
theorem pipe_invokes (d : Bool) (p : Side) (s : Sys) :
    invokes (pipe d p s).1.trace = invokes s.trace := by
  unfold pipe
  split
  · simp [invokes]
  · split
    · simp [invokes]
    · split <;> simp [invokes]

@[simp]
theorem dup_invokes (d : Bool) (fd : Int) (s : Sys) :
    invokes (dup d fd s).1.trace = invokes s.trace := by
  unfold dup
  split
  · simp [invokes]
  · split
    · simp [invokes]
    · split <;> simp [invokes]

@[simp]
theorem read_invokes (w : Nat) (fd : Int) (s : Sys) :
    invokes (read w fd s).1.trace = invokes s.trace := by
  unfold read
  split
  · split
    · split <;> simp [invokes]
    · simp [invokes]
  · simp [invokes]
  · simp [invokes]

theorem drainLoop_invokes : ∀ (fuel : Nat) (sched : List Nat) (fd : Int) (s : Sys)
    (cap : List Byte), invokes (drainLoop fuel sched fd s cap).1.trace = invokes s.trace := by
  intro fuel
  induction fuel with
  | zero => intro sched fd s cap; rfl
  | succ fuel ih =>
    intro sched fd s cap
    unfold drainLoop
    have hr := read_invokes (sched.headD 1023) fd s
    cases hread : read (sched.headD 1023) fd s with
    | mk s1 res =>
      rw [hread] at hr
      cases res with
      | data chunk => simp only; rw [ih]; exact hr
      | eof => exact hr
      | error => exact hr
      | blocked => exact hr

/-- Whatever the drain appends to `captured_output` is free of 0 bytes. -/
theorem drainLoop_nul_free : ∀ (fuel : Nat) (sched : List Nat) (fd : Int) (s : Sys)
    (cap out : List Byte), (∀ x ∈ cap, x ≠ 0) →
    (drainLoop fuel sched fd s cap).2 = Outcome.done out → ∀ x ∈ out, x ≠ 0 := by
  intro fuel
  induction fuel with
  | zero => intro sched fd s cap out _ h; simp [drainLoop] at h
  | succ fuel ih =>
    intro sched fd s cap out hcap h
    unfold drainLoop at h
    cases hread : read (sched.headD 1023) fd s with
    | mk s1 res =>
      rw [hread] at h
      cases res with
      | data chunk =>
        simp only at h
        refine ih _ _ _ _ out ?_ h
        intro x hx
        rcases List.mem_append.mp hx with hx | hx
        · exact hcap x hx
        · exact c_str_nul_free _ x hx
      | eof => simp only [Outcome.done.injEq] at h; subst h; exact hcap
      | error => simp only [Outcome.done.injEq] at h; subst h; exact hcap
      | blocked => simp at h

theorem read_data_shrinks {w : Nat} {fd : Int} {s s1 : Sys} {chunk : List Byte}
    (h : read w fd s = (s1, ReadRes.data chunk)) :
    s1.outBuf.length + s1.errBuf.length < s.outBuf.length + s.errBuf.length := by
  unfold read at h
  split at h
  · rename_i p _
    split at h
    · split at h <;> simp at h
    · rename_i hb
      simp only [Prod.mk.injEq, ReadRes.data.injEq] at h
      obtain ⟨h1, _⟩ := h
      subst h1
      have hpos : 0 < (s.buf p).length := List.length_pos.mpr hb
      have hk := chunkLen_pos w (s.buf p).length
      cases p
      · simp only [Sys.buf] at hpos hk ⊢
        simp only [Sys.setBuf, Sys.log, List.length_drop]
        omega
      · simp only [Sys.buf] at hpos hk ⊢
        simp only [Sys.setBuf, Sys.log, List.length_drop]
        omega
  · simp at h
  · simp at h

theorem drainLoop_never_fuel : ∀ (fuel : Nat) (sched : List Nat) (fd : Int) (s : Sys)
    (cap : List Byte), s.outBuf.length + s.errBuf.length < fuel →
    (drainLoop fuel sched fd s cap).2 ≠ Outcome.fuel := by
  intro fuel
  induction fuel with
  | zero => intro sched fd s cap h; omega
  | succ fuel ih =>
    intro sched fd s cap hl
    unfold drainLoop
    cases hread : read (sched.headD 1023) fd s with
    | mk s1 res =>
      cases res with
      | data chunk =>
        have := read_data_shrinks hread
        exact ih _ _ _ _ (by omega)
      | eof => simp
      | error => simp
      | blocked => simp

/-- The loop bound of `drain` is never exhausted. -/
theorem drain_never_fuel (sched : List Nat) (fd : Int) (s : Sys) (cap : List Byte) :
    (drain sched fd s cap).2 ≠ Outcome.fuel :=
  drainLoop_never_fuel _ sched fd s cap (by omega)

/-- The function `run_dtc_command` either returns a string or blocks. -/
theorem run_never_fuel (env : Env) (s0 : Sys) (args : List (List Byte)) :
    (run_dtc_command env s0 args).2 ≠ Outcome.fuel := by
  have hR : (runToRestore env s0 args).2 ≠ Outcome.fuel := by
    unfold runToRestore
    cases hc : createPipes env s0 with
    | mk s1 res =>
      cases res with
      | none => simp
      | some p =>
        simp only [callTool]
        cases write env.pipeCap 1 (env.dtc_main (args.length : Int) (args.map c_str)).wroteOut
            ((redirect p (saveStreams env s1).1).log
              (Event.invoke (args.length : Int) (args.map c_str))) with
        | mk t1 ok1 =>
          cases ok1 with
          | false => simp
          | true =>
            simp only
            cases write env.pipeCap 2
                (env.dtc_main (args.length : Int) (args.map c_str)).wroteErr t1 with
            | mk t2 ok2 =>
              cases ok2 <;> simp
  unfold run_dtc_command
  cases hrt : runToRestore env s0 args with
  | mk s r =>
    rw [hrt] at hR
    cases r with
    | hang => simp
    | fuel => exact absurd rfl hR
    | done fo =>
      cases fo with
      | none => simp
      | some f =>
        simp only [drainAndClassify, drainBoth]
        have h1 := drain_never_fuel env.schedOut f.pipe_out0 s f.captured_output
        cases hd1 : drain env.schedOut f.pipe_out0 s f.captured_output with
        | mk s1 o1 =>
          rw [hd1] at h1
          cases o1 with
          | hang => simp
          | fuel => exact absurd rfl h1
          | done c1 =>
            simp only
            have h2 := drain_never_fuel env.schedErr f.pipe_err0 (close f.pipe_out0 s1) c1
            cases hd2 : drain env.schedErr f.pipe_err0 (close f.pipe_out0 s1) c1 with
            | mk s2 o2 =>
              rw [hd2] at h2
              cases o2 with
              | hang => simp
              | fuel => exact absurd rfl h2
              | done c2 => simp

/-- The tool blocks when what it sends to standard output does not fit into
    the pipe behind descriptor 1. -/
theorem callTool_blocks_on_full_stdout (env : Env) (argc : Int) (argv : List (List Byte))
    (s : Sys) (p : Side) (h1 : s.fds 1 = some (Obj.pipeWr p))
    (h : env.pipeCap < (s.buf p).length + (env.dtc_main argc argv).wroteOut.length) :
    (callTool env argc argv s).2 = Outcome.hang := by
  have hw : (write env.pipeCap 1 (env.dtc_main argc argv).wroteOut
      (s.log (Event.invoke argc argv))).2 = false := by
    have hb : (s.log (Event.invoke argc argv)).buf p = s.buf p := by cases p <;> rfl
    simp [write, h1, hb, Nat.not_le.mpr h]
  unfold callTool
  cases hww : write env.pipeCap 1 (env.dtc_main argc argv).wroteOut
      (s.log (Event.invoke argc argv)) with
  | mk t ok =>
    rw [hww] at hw
    simp only at hw
    subst hw
    rfl

/-- A run in which the tool writes three bytes to standard output through
    pipes that hold two: everything up to the call of `dtc_main` succeeds,
    then the run blocks with the pipe full and nothing restored. -/
theorem overfull_pipe_run_blocks :
    (run_dtc_command { envOf ⟨[65, 66, 67], [], ToolExit.returned 1⟩ with pipeCap := 2 }
      (Sys.init 10 stdHost) [lit "dtc"]).2 = Outcome.hang ∧
    (run_dtc_command { envOf ⟨[65, 66, 67], [], ToolExit.returned 1⟩ with pipeCap := 2 }
      (Sys.init 10 stdHost) [lit "dtc"]).1.outBuf = [65, 66] ∧
    (run_dtc_command { envOf ⟨[65, 66, 67], [], ToolExit.returned 1⟩ with pipeCap := 2 }
      (Sys.init 10 stdHost) [lit "dtc"]).1.fds 1 = some (Obj.pipeWr Side.out) := by
  decide

/-! ## The claims -/

/-- C2 (code defect).  Descriptors 0, 1, 2 open and a limit of 7: both pipes
    are created (3, 4 and 5, 6) and the table is full, so both `dup` calls
    return -1.  The tool returns 0.  The restoring `dup2 (-1, 1)` fails,
    descriptor 1 stays on the write end of `pipe_out`, and the drain of
    line 102 never sees end of stream: `run_dtc_command` does not return, and
    neither does `dtbToDts`. -/
theorem status_zero_run_hangs_when_dup_fails :
    pipesCreated (envOf ⟨[65], [], ToolExit.returned 0⟩) (Sys.init 7 stdHost) = true ∧
    dupsSucceed (envOf ⟨[65], [], ToolExit.returned 0⟩) (Sys.init 7 stdHost) = false ∧
    (run_dtc_command (envOf ⟨[65], [], ToolExit.returned 0⟩) (Sys.init 7 stdHost) [lit "dtc"]).2
      = Outcome.hang ∧
    (run_dtc_command (envOf ⟨[65], [], ToolExit.returned 0⟩) (Sys.init 7 stdHost)
        [lit "dtc"]).1.fds 1 = some (Obj.pipeWr Side.out) ∧
    (dtbToDts (envOf ⟨[65], [], ToolExit.returned 0⟩) (Sys.init 7 stdHost)
        ⟨lit "/tmp/x.dtb", by decide⟩ ⟨lit "/tmp/x.dts", by decide⟩).2 = Outcome.hang := by
  decide

/-- C3 (code defect).  The same table as for C2, the tool leaving through
    `die ()`: control comes back at `setjmp`, but both `dup` calls had
    returned -1, the restoring `dup2` calls fail, and the drain blocks for
    ever on `pipe_out`: `run_dtc_command` returns nothing to its caller. -/
theorem aborted_run_hangs_when_dup_fails :
    pipesCreated (envOf ⟨[], [70], ToolExit.died⟩) (Sys.init 7 stdHost) = true ∧
    dupsSucceed (envOf ⟨[], [70], ToolExit.died⟩) (Sys.init 7 stdHost) = false ∧
    (run_dtc_command (envOf ⟨[], [70], ToolExit.died⟩) (Sys.init 7 stdHost) [lit "dtc"]).2
      = Outcome.hang ∧
    (run_dtc_command (envOf ⟨[], [70], ToolExit.died⟩) (Sys.init 7 stdHost)
        [lit "dtc"]).1.fds 1 = some (Obj.pipeWr Side.out) := by
  decide

/-- Supplement to C2: in every run with descriptors 1 and 2 open in which both
    pipes and both `dup` calls succeed, the output of the tool fits into the
    pipes and `dtc_main` returns 0, `run_dtc_command` returns the empty
    string whatever the tool wrote, and an entry point given that result
    returns without raising. -/
theorem status_zero_returns_empty_when_setup_succeeds (env : Env) (limit : Nat)
    (host : Nat → Option Nat) (args : List (List Byte)) (a b : Nat)
    (h1 : host 1 = some a) (h2 : host 2 = some b)
    (hp : pipesCreated env (Sys.init limit host) = true)
    (hd : dupsSucceed env (Sys.init limit host) = true)
    (hOcap : (env.dtc_main (args.length : Int) (args.map c_str)).wroteOut.length ≤ env.pipeCap)
    (hEcap : (env.dtc_main (args.length : Int) (args.map c_str)).wroteErr.length ≤ env.pipeCap)
    (hx : (env.dtc_main (args.length : Int) (args.map c_str)).exit = ToolExit.returned 0) :
    (run_dtc_command env (Sys.init limit host) args).2 = Outcome.done [] ∧
    (finishJni (run_dtc_command env (Sys.init limit host) args)).2
      = Outcome.done Jni.returned := by
  have h := (run_ok env limit host args h1 h2 hp hd hOcap hEcap).1
  rw [hx] at h
  have h' : (run_dtc_command env (Sys.init limit host) args).2 = Outcome.done [] := by
    rw [h]; simp [afterSetjmp, classify]
  refine ⟨h', ?_⟩
  cases hr : run_dtc_command env (Sys.init limit host) args with
  | mk s o =>
    rw [hr] at h'
    simp only at h'
    subst h'
    rfl

/-- Supplement to C3: in every run with descriptors 1 and 2 open in which both
    pipes and both `dup` calls succeed, the output of the tool fits into the
    pipes and the tool leaves through `die ()`, `run_dtc_command` returns the
    failure text with code -1 and the marker placed before what was captured
    from stdout, then from stderr. -/
theorem abort_returns_marker_when_setup_succeeds (env : Env) (limit : Nat)
    (host : Nat → Option Nat) (args : List (List Byte)) (a b : Nat)
    (h1 : host 1 = some a) (h2 : host 2 = some b)
    (hp : pipesCreated env (Sys.init limit host) = true)
    (hd : dupsSucceed env (Sys.init limit host) = true)
    (hOcap : (env.dtc_main (args.length : Int) (args.map c_str)).wroteOut.length ≤ env.pipeCap)
    (hEcap : (env.dtc_main (args.length : Int) (args.map c_str)).wroteErr.length ≤ env.pipeCap)
    (hx : (env.dtc_main (args.length : Int) (args.map c_str)).exit = ToolExit.died) :
    (run_dtc_command env (Sys.init limit host) args).2
      = Outcome.done (lit "DTC Failed (Code " ++ lit "-1" ++ lit "):\n"
          ++ (lit "CRITICAL: DTC Terminated (die() called)\n"
            ++ captured env.schedOut (env.dtc_main (args.length : Int) (args.map c_str)).wroteOut
            ++ captured env.schedErr
              (env.dtc_main (args.length : Int) (args.map c_str)).wroteErr)) := by
  have h := (run_ok env limit host args h1 h2 hp hd hOcap hEcap).1
  rw [hx] at h
  rw [h]
  have e : to_string (-1) = lit "-1" := by decide
  simp [afterSetjmp, classify, e]

theorem createPipes_none {env : Env} {s0 : Sys} (h : pipesCreated env s0 = false) :
    (createPipes env s0).2 = none ∧
    ((createPipes env s0).1 = s0.log (Event.pipe none) ∨
      ∃ r w : Nat, s0.fds r = none ∧ s0.fds w = none ∧
        (createPipes env s0).1 =
          (((s0.put r (some (Obj.pipeRd Side.out))).put w (some (Obj.pipeWr Side.out))).log
            (Event.pipe (some (r, w)))).log (Event.pipe none)) := by
  unfold pipesCreated at h
  unfold createPipes at h ⊢
  cases hpo : pipe env.pipeOutDenied Side.out s0 with
  | mk s1 res1 =>
    rw [hpo] at h
    cases res1 with
    | none => exact ⟨rfl, Or.inl (pipe_none hpo)⟩
    | some po =>
      obtain ⟨r, w, rfl, _, _, _, hr, hw, rfl⟩ := pipe_some hpo
      simp only at h ⊢
      cases hpe : pipe env.pipeErrDenied Side.err
          (((s0.put r (some (Obj.pipeRd Side.out))).put w (some (Obj.pipeWr Side.out))).log
            (Event.pipe (some (r, w)))) with
      | mk s2 res2 =>
        rw [hpe] at h
        cases res2 with
        | none => exact ⟨rfl, Or.inr ⟨r, w, hr, hw, pipe_none hpe⟩⟩
        | some pe => simp at h

/-- C4.  If either `pipe` call of line 51 fails, `run_dtc_command` returns
    "Internal Error: Pipe creation failed"; `dtc_main` is not called; the only
    calls made are `pipe` calls, so nothing is duplicated or redirected, and
    every descriptor that was open (1 and 2 among them) still refers to the
    same file. -/
theorem pipe_failure_returns_internal_error (env : Env) (limit : Nat)
    (host : Nat → Option Nat) (args : List (List Byte))
    (h : pipesCreated env (Sys.init limit host) = false) :
    (run_dtc_command env (Sys.init limit host) args).2
      = Outcome.done (lit "Internal Error: Pipe creation failed") ∧
    invokes (run_dtc_command env (Sys.init limit host) args).1.trace = [] ∧
    (∀ e ∈ (run_dtc_command env (Sys.init limit host) args).1.trace, ∃ r, e = Event.pipe r) ∧
    (∀ fd o, (Sys.init limit host).fds fd = some o →
      (run_dtc_command env (Sys.init limit host) args).1.fds fd = some o) := by
  obtain ⟨hn, hs⟩ := createPipes_none h
  have hrun : run_dtc_command env (Sys.init limit host) args
      = ((createPipes env (Sys.init limit host)).1,
          Outcome.done (lit "Internal Error: Pipe creation failed")) := by
    unfold run_dtc_command runToRestore
    cases hc : createPipes env (Sys.init limit host) with
    | mk s1 res =>
      rw [hc] at hn
      simp only at hn
      subst hn
      rfl
  rw [hrun]
  refine ⟨rfl, ?_, ?_, ?_⟩
  · rcases hs with hs | ⟨r, w, _, _, hs⟩ <;> rw [hs] <;> simp [invokes, Sys.init]
  · rcases hs with hs | ⟨r, w, _, _, hs⟩ <;> rw [hs] <;> simp [Sys.init]
  · intro fd o ho
    rcases hs with hs | ⟨r, w, hr, hw, hs⟩
    · rw [hs]; exact ho
    · rw [hs]
      simp only [log_fds, put_fds]
      have e1 : fd ≠ w := by rintro rfl; rw [hw] at ho; cases ho
      have e2 : fd ≠ r := by rintro rfl; rw [hr] at ho; cases ho
      simp [e1, e2, ho]

/-- Witness for C4: a table with a single free slot, so the first `pipe` fails. -/
theorem pipe_failure_returns_internal_error_witness :
    pipesCreated (envOf ⟨[], [], ToolExit.returned 0⟩) (Sys.init 4 stdHost) = false ∧
    (run_dtc_command (envOf ⟨[], [], ToolExit.returned 0⟩) (Sys.init 4 stdHost) [lit "dtc"]).2
      = Outcome.done (lit "Internal Error: Pipe creation failed") :=
  ⟨by decide,
    (pipe_failure_returns_internal_error (envOf ⟨[], [], ToolExit.returned 0⟩) 4 stdHost
      [lit "dtc"] (by decide)).1⟩

/-- C5 (code defect).  With descriptors 0, 1, 2 open and a limit of 5 the first
    `pipe` gets 3 and 4 and the second fails; `run_dtc_command` returns the
    internal error and leaves 3 and 4, which were closed before the call,
    open on the two ends of `pipe_out`. -/
theorem second_pipe_failure_leaks_first_pipe :
    pipesCreated (envOf ⟨[], [], ToolExit.returned 0⟩) (Sys.init 5 stdHost) = false ∧
    (run_dtc_command (envOf ⟨[], [], ToolExit.returned 0⟩) (Sys.init 5 stdHost) [lit "dtc"]).2
      = Outcome.done (lit "Internal Error: Pipe creation failed") ∧
    (run_dtc_command (envOf ⟨[], [], ToolExit.returned 0⟩) (Sys.init 5 stdHost) [lit "dtc"]).1.trace
      = [Event.pipe (some (3, 4)), Event.pipe none] ∧
    (Sys.init 5 stdHost).fds 3 = none ∧ (Sys.init 5 stdHost).fds 4 = none ∧
    (run_dtc_command (envOf ⟨[], [], ToolExit.returned 0⟩) (Sys.init 5 stdHost) [lit "dtc"]).1.fds 3
      = some (Obj.pipeRd Side.out) ∧
    (run_dtc_command (envOf ⟨[], [], ToolExit.returned 0⟩) (Sys.init 5 stdHost) [lit "dtc"]).1.fds 4
      = some (Obj.pipeWr Side.out) := by
  decide

theorem runToRestore_frame {env : Env} {s0 : Sys} {args : List (List Byte)} {f : Frame}
    (h : (runToRestore env s0 args).2 = Outcome.done (some f)) :
    f.ret = (afterSetjmp (env.dtc_main (args.length : Int) (args.map c_str)).exit).1 ∧
    f.captured_output
      = (afterSetjmp (env.dtc_main (args.length : Int) (args.map c_str)).exit).2 := by
  unfold runToRestore at h
  cases hc : createPipes env s0 with
  | mk s1 res =>
    rw [hc] at h
    cases res with
    | none => simp at h
    | some p =>
      simp only [callTool] at h
      cases hw1 : write env.pipeCap 1
          (env.dtc_main (args.length : Int) (args.map c_str)).wroteOut
          ((redirect p (saveStreams env s1).1).log
            (Event.invoke (args.length : Int) (args.map c_str))) with
      | mk t1 ok1 =>
        rw [hw1] at h
        cases ok1 with
        | false => simp at h
        | true =>
          simp only at h
          cases hw2 : write env.pipeCap 2
              (env.dtc_main (args.length : Int) (args.map c_str)).wroteErr t1 with
          | mk t2 ok2 =>
            rw [hw2] at h
            cases ok2 with
            | false => simp at h
            | true =>
              simp only [Outcome.done.injEq, Option.some.injEq] at h
              subst h
              exact ⟨rfl, rfl⟩

theorem afterSetjmp_nul_free (e : ToolExit) : ∀ x ∈ (afterSetjmp e).2, x ≠ 0 := by
  cases e with
  | returned status => simp [afterSetjmp]
  | died => simp only [afterSetjmp]; decide

theorem drainBoth_done {env : Env} {s : Sys} {f : Frame} {code : Int} {diag : List Byte}
    (h : (drainBoth env s f).2 = Outcome.done (code, diag))
    (hcap : ∀ x ∈ f.captured_output, x ≠ 0) :
    code = f.ret ∧ ∀ x ∈ diag, x ≠ 0 := by
  unfold drainBoth at h
  cases hd1 : drain env.schedOut f.pipe_out0 s f.captured_output with
  | mk s1 o1 =>
    rw [hd1] at h
    cases o1 with
    | hang => simp at h
    | fuel => simp at h
    | done c1 =>
      simp only at h
      have n1 : ∀ x ∈ c1, x ≠ 0 :=
        drainLoop_nul_free _ _ _ _ _ c1 hcap (by
          have : (drain env.schedOut f.pipe_out0 s f.captured_output).2 = Outcome.done c1 := by
            rw [hd1]
          exact this)
      cases hd2 : drain env.schedErr f.pipe_err0 (close f.pipe_out0 s1) c1 with
      | mk s2 o2 =>
        rw [hd2] at h
        cases o2 with
        | hang => simp at h
        | fuel => simp at h
        | done c2 =>
          simp only [Outcome.done.injEq, Prod.mk.injEq] at h
          obtain ⟨e1, e2⟩ := h
          subst e1 e2
          refine ⟨rfl, ?_⟩
          exact drainLoop_nul_free _ _ _ _ _ c2 n1 (by
            have : (drain env.schedErr f.pipe_err0 (close f.pipe_out0 s1) c1).2
                = Outcome.done c2 := by rw [hd2]
            exact this)

theorem lit_failed_nul_free : ∀ x ∈ lit "DTC Failed (Code ", x ≠ 0 := by decide

theorem lit_colon_nul_free : ∀ x ∈ lit "):\n", x ≠ 0 := by decide

theorem classify_failure {code : Int} (diag : List Byte) (hc : code ≠ 0) :
    classify code diag = lit "DTC Failed (Code " ++ to_string code ++ lit "):\n" ++ diag := by
  simp [classify, hc]

theorem failure_message_nul_free (code : Int) {diag : List Byte} (h : ∀ x ∈ diag, x ≠ 0) :
    ∀ x ∈ lit "DTC Failed (Code " ++ to_string code ++ lit "):\n" ++ diag, x ≠ 0 := by
  intro x hx
  simp only [List.mem_append] at hx
  rcases hx with ((hx | hx) | hx) | hx
  · exact lit_failed_nul_free x hx
  · exact to_string_nul_free code x hx
  · exact lit_colon_nul_free x hx
  · exact h x hx

/-- What either entry point does with a tool failure reaching line 117. -/
theorem tool_failure_raises {env : Env} {s0 : Sys} {args : List (List Byte)} {f : Frame}
    {code : Int} {diag : List Byte}
    (hf : (runToRestore env s0 args).2 = Outcome.done (some f))
    (hd : (drainBoth env (runToRestore env s0 args).1 f).2 = Outcome.done (code, diag))
    (hc : code ≠ 0) :
    (finishJni (run_dtc_command env s0 args)).2
      = Outcome.done (Jni.threw (lit "java/io/IOException")
          (lit "DTC Failed (Code " ++ to_string code ++ lit "):\n" ++ diag)) ∧
    code = (afterSetjmp (env.dtc_main (args.length : Int) (args.map c_str)).exit).1 := by
  obtain ⟨fr, fc⟩ := runToRestore_frame hf
  obtain ⟨e, hz⟩ := drainBoth_done hd (by rw [fc]; exact afterSetjmp_nul_free _)
  refine ⟨?_, by rw [e, fr]⟩
  rw [run_of_frame hf]
  unfold drainAndClassify
  cases hb : drainBoth env (runToRestore env s0 args).1 f with
  | mk s1 o =>
    rw [hb] at hd
    simp only at hd
    subst hd
    simp only [finishJni, throwIfNonEmpty, classify_failure diag hc]
    have hne : lit "DTC Failed (Code " ++ to_string code ++ lit "):\n" ++ diag ≠ [] := by
      intro h
      have h2 : (lit "DTC Failed (Code " ++ to_string code ++ lit "):\n" ++ diag).head?
          = some 68 := rfl
      rw [h] at h2
      cases h2
    rw [if_pos hne, c_str_of_nul_free (failure_message_nul_free code hz)]

theorem pipe_failure_raises {env : Env} {s0 : Sys} (args : List (List Byte))
    (h : pipesCreated env s0 = false) :
    (finishJni (run_dtc_command env s0 args)).2
      = Outcome.done (Jni.threw (lit "java/io/IOException")
          (lit "Internal Error: Pipe creation failed")) := by
  have hn := (createPipes_none h).1
  unfold run_dtc_command runToRestore
  cases hc : createPipes env s0 with
  | mk s1 res =>
    rw [hc] at hn
    simp only at hn
    subst hn
    simp only [finishJni]
    decide

/-- C9 as stated fails.  With a single free descriptor the first `pipe`
    fails; `dtbToDts` raises `java/io/IOException` with the message
    "Internal Error: Pipe creation failed", which is not of the form
    `"DTC Failed (Code " ++ decimal code ++ "):\n" ++ diagnostics` for any
    code and diagnostics. -/
theorem pipe_failure_message_has_no_code :
    pipesCreated (envOf ⟨[], [], ToolExit.returned 0⟩) (Sys.init 4 stdHost) = false ∧
    (dtbToDts (envOf ⟨[], [], ToolExit.returned 0⟩) (Sys.init 4 stdHost)
        ⟨lit "/tmp/x.dtb", by decide⟩ ⟨lit "/tmp/x.dts", by decide⟩).2
      = Outcome.done (Jni.threw (lit "java/io/IOException")
          (lit "Internal Error: Pipe creation failed")) ∧
    ¬ ∃ (code : Int) (diagnostics : List Byte),
      lit "Internal Error: Pipe creation failed"
        = lit "DTC Failed (Code " ++ to_string code ++ lit "):\n" ++ diagnostics := by
  refine ⟨by decide, by decide, ?_⟩
  rintro ⟨code, diag, h⟩
  have h0 := congrArg List.head? h
  have h1 : (lit "Internal Error: Pipe creation failed").head? = some 73 := by decide
  have h2 : (lit "DTC Failed (Code " ++ to_string code ++ lit "):\n" ++ diag).head? = some 68 := by
    rfl
  rw [h1, h2] at h0
  exact absurd h0 (by decide)

/-- C9, amended.  For every call of `dtbToDts` or `dtsToDtb`:
    if the tool failed, that is line 117 is reached with `ret = code ≠ 0`
    (the status returned by `dtc_main`, or -1 after an abort) and
    `captured_output = diagnostics`, the entry point raises
    `java/io/IOException` with the message exactly
    `"DTC Failed (Code " ++ decimal code ++ "):\n" ++ diagnostics`;
    if pipe creation failed, it raises `java/io/IOException` with the message
    exactly "Internal Error: Pipe creation failed", which carries no code. -/
theorem failure_raises_ioexception (env : Env) (s0 : Sys) (inputPath outputPath : CStr) :
    (pipesCreated env s0 = false →
      (dtbToDts env s0 inputPath outputPath).2
        = Outcome.done (Jni.threw (lit "java/io/IOException")
            (lit "Internal Error: Pipe creation failed")) ∧
      (dtsToDtb env s0 inputPath outputPath).2
        = Outcome.done (Jni.threw (lit "java/io/IOException")
            (lit "Internal Error: Pipe creation failed"))) ∧
    (∀ (f : Frame) (code : Int) (diagnostics : List Byte),
      (runToRestore env s0 (dtbToDts_args inputPath outputPath)).2 = Outcome.done (some f) →
      (drainBoth env (runToRestore env s0 (dtbToDts_args inputPath outputPath)).1 f).2
        = Outcome.done (code, diagnostics) →
      code ≠ 0 →
      (dtbToDts env s0 inputPath outputPath).2
        = Outcome.done (Jni.threw (lit "java/io/IOException")
            (lit "DTC Failed (Code " ++ to_string code ++ lit "):\n" ++ diagnostics)) ∧
      code = (afterSetjmp (env.dtc_main 8
        ((dtbToDts_args inputPath outputPath).map c_str)).exit).1) ∧
    (∀ (f : Frame) (code : Int) (diagnostics : List Byte),
      (runToRestore env s0 (dtsToDtb_args inputPath outputPath)).2 = Outcome.done (some f) →
      (drainBoth env (runToRestore env s0 (dtsToDtb_args inputPath outputPath)).1 f).2
        = Outcome.done (code, diagnostics) →
      code ≠ 0 →
      (dtsToDtb env s0 inputPath outputPath).2
        = Outcome.done (Jni.threw (lit "java/io/IOException")
            (lit "DTC Failed (Code " ++ to_string code ++ lit "):\n" ++ diagnostics)) ∧
      code = (afterSetjmp (env.dtc_main 8
        ((dtsToDtb_args inputPath outputPath).map c_str)).exit).1) := by
  refine ⟨fun h => ⟨pipe_failure_raises _ h, pipe_failure_raises _ h⟩, ?_, ?_⟩
  · intro f code diag hf hd hc
    exact tool_failure_raises hf hd hc
  · intro f code diag hf hd hc
    exact tool_failure_raises hf hd hc

/-- Witness for the amended C9: the tool aborts after writing `A` to
    standard output and `F` to standard error; line 117 is reached with
    `ret = -1` and the marker followed by `AF`. -/
theorem failure_raises_ioexception_witness :
    (dtbToDts (envOf ⟨[65], [70], ToolExit.died⟩) (Sys.init 10 stdHost)
        ⟨lit "/tmp/x.dtb", by decide⟩ ⟨lit "/tmp/x.dts", by decide⟩).2
      = Outcome.done (Jni.threw (lit "java/io/IOException")
          (lit "DTC Failed (Code " ++ to_string (-1) ++ lit "):\n"
            ++ (lit "CRITICAL: DTC Terminated (die() called)\n" ++ [65, 70]))) :=
  ((failure_raises_ioexception (envOf ⟨[65], [70], ToolExit.died⟩) (Sys.init 10 stdHost)
      ⟨lit "/tmp/x.dtb", by decide⟩ ⟨lit "/tmp/x.dts", by decide⟩).2.1
    ⟨3, 5, -1, lit "CRITICAL: DTC Terminated (die() called)\n"⟩ (-1)
    (lit "CRITICAL: DTC Terminated (die() called)\n" ++ [65, 70])
    (by decide) (by decide) (by decide)).1

@[simp]
theorem createPipes_invokes (env : Env) (s : Sys) :
    invokes (createPipes env s).1.trace = invokes s.trace := by
  unfold createPipes
  have h1 := pipe_invokes env.pipeOutDenied Side.out s
  cases hpo : pipe env.pipeOutDenied Side.out s with
  | mk s1 res1 =>
    rw [hpo] at h1
    cases res1 with
    | none => exact h1
    | some po =>
      simp only
      have h2 := pipe_invokes env.pipeErrDenied Side.err s1
      cases hpe : pipe env.pipeErrDenied Side.err s1 with
      | mk s2 res2 =>
        rw [hpe] at h2
        cases res2 with
        | none => exact h2.trans h1
        | some pe => exact h2.trans h1

@[simp]
theorem saveStreams_invokes (env : Env) (s : Sys) :
    invokes (saveStreams env s).1.trace = invokes s.trace := by
  simp [saveStreams]

@[simp]
theorem redirect_invokes (p : Pipes) (s : Sys) :
    invokes (redirect p s).trace = invokes s.trace := by
  simp [redirect, invokes]

@[simp]
theorem restore_invokes (a b : Int) (s : Sys) :
    invokes (restore a b s).trace = invokes s.trace := by
  simp [restore, invokes]

@[simp]
theorem callTool_invokes (env : Env) (argc : Int) (argv : List (List Byte)) (s : Sys) :
    invokes (callTool env argc argv s).1.trace = invokes s.trace ++ [(argc, argv)] := by
  unfold callTool
  have h1 := write_trace env.pipeCap 1 (env.dtc_main argc argv).wroteOut
    (s.log (Event.invoke argc argv))
  cases hw1 : write env.pipeCap 1 (env.dtc_main argc argv).wroteOut
      (s.log (Event.invoke argc argv)) with
  | mk t1 ok1 =>
    rw [hw1] at h1
    simp only at h1
    cases ok1 with
    | false => simp [h1, invokes]
    | true =>
      simp only
      have h2 := write_trace env.pipeCap 2 (env.dtc_main argc argv).wroteErr t1
      cases hw2 : write env.pipeCap 2 (env.dtc_main argc argv).wroteErr t1 with
      | mk t2 ok2 =>
        rw [hw2] at h2
        simp only at h2
        cases ok2 <;> simp [h2, h1, invokes]

theorem drainBoth_invokes (env : Env) (s : Sys) (f : Frame) :
    invokes (drainBoth env s f).1.trace = invokes s.trace := by
  unfold drainBoth
  have h1 := drainLoop_invokes (s.outBuf.length + s.errBuf.length + 1) env.schedOut
    f.pipe_out0 s f.captured_output
  cases hd1 : drain env.schedOut f.pipe_out0 s f.captured_output with
  | mk s1 o1 =>
    have hd1' : drainLoop (s.outBuf.length + s.errBuf.length + 1) env.schedOut
        f.pipe_out0 s f.captured_output = (s1, o1) := hd1
    rw [hd1'] at h1
    cases o1 with
    | hang => exact h1
    | fuel => exact h1
    | done c1 =>
      simp only
      have h2 := drainLoop_invokes
        ((close f.pipe_out0 s1).outBuf.length + (close f.pipe_out0 s1).errBuf.length + 1)
        env.schedErr f.pipe_err0 (close f.pipe_out0 s1) c1
      cases hd2 : drain env.schedErr f.pipe_err0 (close f.pipe_out0 s1) c1 with
      | mk s2 o2 =>
        have hd2' : drainLoop
            ((close f.pipe_out0 s1).outBuf.length + (close f.pipe_out0 s1).errBuf.length + 1)
            env.schedErr f.pipe_err0 (close f.pipe_out0 s1) c1 = (s2, o2) := hd2
        rw [hd2'] at h2
        simp only [close_invokes] at h2
        cases o2 with
        | hang => exact h2.trans h1
        | fuel => exact h2.trans h1
        | done c2 => simp only [close_invokes]; exact h2.trans h1

theorem drainAndClassify_invokes (env : Env) (s : Sys) (f : Frame) :
    invokes (drainAndClassify env s f).1.trace = invokes s.trace := by
  unfold drainAndClassify
  have h := drainBoth_invokes env s f
  cases hb : drainBoth env s f with
  | mk s1 o =>
    rw [hb] at h
    cases o <;> exact h

/-- The tool `dtc_main` is called once, with `argc = args.size ()` and
    `argv[i] = args[i].c_str ()`, when both pipes are created, and not at
    all otherwise. -/
theorem run_invokes (env : Env) (s0 : Sys) (args : List (List Byte)) :
    invokes (run_dtc_command env s0 args).1.trace
      = invokes s0.trace ++
        (if pipesCreated env s0 = true then [((args.length : Int), args.map c_str)] else []) := by
  unfold run_dtc_command runToRestore pipesCreated
  have hc := createPipes_invokes env s0
  cases hcp : createPipes env s0 with
  | mk s1 res =>
    rw [hcp] at hc
    cases res with
    | none => simpa using hc
    | some p =>
      simp only [Option.isSome_some, if_true]
      have ht := callTool_invokes env (args.length : Int) (args.map c_str)
        (redirect p (saveStreams env s1).1)
      cases hct : callTool env (args.length : Int) (args.map c_str)
          (redirect p (saveStreams env s1).1) with
      | mk t o =>
        rw [hct] at ht
        simp only [redirect_invokes, saveStreams_invokes] at ht
        cases o with
        | hang => simpa [hc] using ht
        | fuel => simpa [hc] using ht
        | done rc =>
          simp only
          rw [drainAndClassify_invokes]
          simp [ht, hc]

theorem finishJni_fst (r : Sys × Outcome (List Byte)) : (finishJni r).1 = r.1 := by
  obtain ⟨s, o⟩ := r
  cases o <;> rfl

theorem map_c_str_args (l : List (List Byte)) (h : ∀ a ∈ l, ∀ x ∈ a, x ≠ 0) :
    l.map c_str = l := by
  induction l with
  | nil => rfl
  | cons a l ih =>
    simp only [List.map_cons]
    rw [c_str_of_nul_free (h a (by simp)), ih (fun b hb => h b (by simp [hb]))]

/-- C8.  For all C strings `inputPath`, `outputPath`: `dtbToDts` passes to
    `run_dtc_command` exactly `["dtc","-I","dtb","-O","dts","-o",outputPath,inputPath]`
    and `dtsToDtb` exactly `["dtc","-I","dts","-O","dtb","-o",outputPath,inputPath]`;
    when `run_dtc_command` calls `dtc_main` (that is, when both pipes are
    created) it does so once, with `argc = 8` and `argv` equal to that request,
    element by element and in the same order, and otherwise not at all. -/
theorem entry_points_pass_request_to_dtc_main (env : Env) (limit : Nat)
    (host : Nat → Option Nat) (inputPath outputPath : CStr) :
    dtbToDts env (Sys.init limit host) inputPath outputPath
      = finishJni (run_dtc_command env (Sys.init limit host)
          [lit "dtc", lit "-I", lit "dtb", lit "-O", lit "dts", lit "-o",
            outputPath.bytes, inputPath.bytes]) ∧
    dtsToDtb env (Sys.init limit host) inputPath outputPath
      = finishJni (run_dtc_command env (Sys.init limit host)
          [lit "dtc", lit "-I", lit "dts", lit "-O", lit "dtb", lit "-o",
            outputPath.bytes, inputPath.bytes]) ∧
    invokes (dtbToDts env (Sys.init limit host) inputPath outputPath).1.trace
      = (if pipesCreated env (Sys.init limit host) = true then
          [(8, [lit "dtc", lit "-I", lit "dtb", lit "-O", lit "dts", lit "-o",
            outputPath.bytes, inputPath.bytes])]
        else []) ∧
    invokes (dtsToDtb env (Sys.init limit host) inputPath outputPath).1.trace
      = (if pipesCreated env (Sys.init limit host) = true then
          [(8, [lit "dtc", lit "-I", lit "dts", lit "-O", lit "dtb", lit "-o",
            outputPath.bytes, inputPath.bytes])]
        else []) := by
  have ho := c_str_of_nul_free outputPath.nul_free
  have hi := c_str_of_nul_free inputPath.nul_free
  have a1 : dtbToDts_args inputPath outputPath
      = [lit "dtc", lit "-I", lit "dtb", lit "-O", lit "dts", lit "-o",
          outputPath.bytes, inputPath.bytes] := by
    simp only [dtbToDts_args, ho, hi]
  have a2 : dtsToDtb_args inputPath outputPath
      = [lit "dtc", lit "-I", lit "dts", lit "-O", lit "dtb", lit "-o",
          outputPath.bytes, inputPath.bytes] := by
    simp only [dtsToDtb_args, ho, hi]
  have m1 : [lit "dtc", lit "-I", lit "dtb", lit "-O", lit "dts", lit "-o",
      outputPath.bytes, inputPath.bytes].map c_str
      = [lit "dtc", lit "-I", lit "dtb", lit "-O", lit "dts", lit "-o",
          outputPath.bytes, inputPath.bytes] := by
    simp only [List.map_cons, List.map_nil, ho, hi]
    rfl
  have m2 : [lit "dtc", lit "-I", lit "dts", lit "-O", lit "dtb", lit "-o",
      outputPath.bytes, inputPath.bytes].map c_str
      = [lit "dtc", lit "-I", lit "dts", lit "-O", lit "dtb", lit "-o",
          outputPath.bytes, inputPath.bytes] := by
    simp only [List.map_cons, List.map_nil, ho, hi]
    rfl
  refine ⟨by simp only [dtbToDts, a1], by simp only [dtsToDtb, a2], ?_, ?_⟩
  · simp only [dtbToDts, a1, finishJni_fst, run_invokes, m1]
    simp [Sys.init, invokes]
  · simp only [dtsToDtb, a2, finishJni_fst, run_invokes, m2]
    simp [Sys.init, invokes]

end KonaBess
